import Mathlib

/-!
# Kimera-Distributed: distributed loop closure detection

A shallow embedding of `src/src/DistributedLoopClosure.cpp`
(class `DistributedLoopClosure`) and theorems about it.

Conventions of the embedding.

* `double` and `float` values are rationals (`ℚ`); the single place where the
  source divides by a possibly zero count is modelled separately
  (`inlier_percentage_below`).
* Pose ids are natural numbers and `static_cast<int>(next_pose_id_)` is the
  embedding of `ℕ` into `ℤ`: pose ids are taken below `2^31`, the range where
  the cast keeps the value, and `int` arithmetic does not overflow.
* `assert` is active (no `NDEBUG`): a failed assertion and an uncaught
  exception (`std::vector::at`) end the process. An operation therefore
  yields an `Outcome`: `ok` with a result and the new state, or `fatal` with
  the state at the point of the abort.
* The libraries the class calls (DBoW2 database and vocabulary, the ROS frame
  service, the OpenCV descriptor matcher, the OpenGV RANSAC solver) are the
  fields of `Deps`; theorems quantify over them.
* Writes of the debug CSV file and the wall-clock `last_callback_time_` are
  not part of the state.

Layout: the embedding of the source (`detectLoopInMyDB`, `detectLoopInSharedDB`,
`requestVLCFrame`, `ComputeMatchedIndices`, `recoverPose`, `bowCallback`), the
specification side definitions and a small reference deployment used in the
examples, auxiliary lemmas, and last the main results in the order of the
properties C1 to C10, each with its examples.
-/

namespace KimeraDistributed

/-! ## Data model -/

abbrev RobotID := Nat
abbrev PoseID := Nat

/-- A vertex of the pose graph, `std::pair<RobotID, PoseID>`. -/
abbrev VertexID := RobotID × PoseID

/-- Sparse bag-of-words vector `DBoW2::BowVector`: word id and weight. -/
abbrev BowVector := List (Nat × ℚ)

/-- One entry of `DBoW2::QueryResults`. -/
structure Result where
  Id : Nat
  Score : ℚ
deriving DecidableEq, Repr

abbrev Point3 := ℚ × ℚ × ℚ

/-- Keypoints and descriptors of one keyframe. Default construction gives
ids `0` and no keypoints. -/
structure VLCFrame where
  robot_id : RobotID
  pose_id : PoseID
  keypoints : List Point3
  descriptors_mat : List (List Nat)
deriving DecidableEq, Repr

instance : Inhabited VLCFrame := ⟨⟨0, 0, [], []⟩⟩

/-- OpenCV `cv::DMatch`. -/
structure DMatch where
  queryIdx : Nat
  trainIdx : Nat
  distance : ℚ
deriving DecidableEq, Repr

/-- OpenGV `transformation_t`, a 3x4 matrix `[R | t]`. -/
abbrev transformation_t := Fin 3 → Fin 4 → ℚ

/-- The two parts of a `gtsam::Pose3`. -/
structure Pose3 where
  rotation : Fin 3 → Fin 3 → ℚ
  translation : Fin 3 → ℚ
deriving DecidableEq

/-- Verified loop closure `VLCEdge(vertex_src, vertex_dst, T_src_dst)`. -/
structure VLCEdge where
  vertex_src : VertexID
  vertex_dst : VertexID
  T_src_dst : Pose3
deriving DecidableEq

/-- The message `kimera_distributed::BowQuery`. -/
structure BowQuery where
  robot_id : RobotID
  pose_id : PoseID
  bow_vector : BowVector
deriving DecidableEq, Repr

/-- Parameters read by the constructor. The member declarations are not part
of the sources at hand: the integer parameters are `Int`, the inlier count
floor, which is compared with `inliers_.size()`, is a natural number. -/
structure Params where
  my_id : RobotID
  alpha : ℚ
  dist_local : Int
  max_db_results : Int
  base_nss_factor : ℚ
  min_nss_factor : ℚ
  lowe_ratio : ℚ
  max_ransac_iterations : Int
  ransac_threshold : ℚ
  geometric_verification_min_inlier_count : Nat
  geometric_verification_min_inlier_percentage : ℚ

/-- What `ransac.computeModel()` leaves behind: its return value,
`ransac.inliers_` and `ransac.model_coefficients_`. -/
structure RansacOutcome where
  success : Bool
  inliers : List Nat
  model_coefficients : transformation_t

/-- The external collaborators of the class.

* `score a b`: `OrbVocabulary::score`.
* `query db v max_results max_id`: `OrbDatabase::query` on a database whose
  entries are `db`; `max_id = -1` is the default argument (no bound).
* `frame_query v`: the service call `vlc_frame_query` for `v`: whether the
  call succeeded and the frame held by the response afterwards.
* `knnMatch q m`: `cv::DescriptorMatcher::knnMatch` with `k = 2`.
* `computeModel iters thr f_ref f_cur`: the point cloud RANSAC. -/
structure Deps where
  score : BowVector → BowVector → ℚ
  query : List BowVector → BowVector → Int → Int → List Result
  frame_query : VertexID → Bool × VLCFrame
  knnMatch : List (List Nat) → List (List Nat) → List (List DMatch)
  computeModel : Int → ℚ → List Point3 → List Point3 → RansacOutcome

/-- The mutable members of `DistributedLoopClosure`, followed by three traces
of what the object did to the outside: the candidate pairs announced by
`recoverPose` ("Checking loop closure between ..."), the frame service calls
issued, and the edges published. -/
structure DistributedLoopClosure where
  next_pose_id : PoseID
  db_BoW : List BowVector
  shared_db_BoW : List BowVector
  latest_bowvec : BowVector
  shared_db_to_vertex : List (Nat × VertexID)
  vlc_frames : List (VertexID × VLCFrame)
  loop_closures : List VLCEdge
  checked : List (VertexID × VertexID)
  frame_requests : List VertexID
  published : List VLCEdge
deriving DecidableEq

/-- State after the constructor: `next_pose_id_ = 0`, empty containers. -/
def DistributedLoopClosure.init : DistributedLoopClosure :=
  ⟨0, [], [], [], [], [], [], [], [], []⟩

/-- Result of running a member function. -/
inductive Outcome (α : Type) where
  | ok (a : α) (s : DistributedLoopClosure)
  | fatal (s : DistributedLoopClosure)
deriving DecidableEq

/-- The state an operation ends in, whether it returned or aborted. -/
def Outcome.state {α : Type} : Outcome α → DistributedLoopClosure
  | .ok _ s => s
  | .fatal s => s

/-- Whether the operation returned. -/
def Outcome.returned {α : Type} : Outcome α → Bool
  | .ok _ _ => true
  | .fatal _ => false

/-! ## `std::map` -/

/-- `m.find(k)`: the value stored under `k`, if any. -/
def mapFind {K V : Type} [DecidableEq K] : List (K × V) → K → Option V
  | [], _ => none
  | (k', v) :: rest, k => if k' = k then some v else mapFind rest k

/-- `m[k]` used as a value: the stored value; a missing key is first inserted
with a default constructed value. -/
def mapIndex {K V : Type} [DecidableEq K] [Inhabited V]
    (m : List (K × V)) (k : K) : V × List (K × V) :=
  match mapFind m k with
  | some v => (v, m)
  | none => (default, m ++ [(k, default)])

/-- `m[k] = v`: overwrite the value under `k`, or insert the pair. -/
def mapAssign {K V : Type} [DecidableEq K] : List (K × V) → K → V → List (K × V)
  | [], k, v => [(k, v)]
  | (k', v') :: rest, k, v =>
    if k' = k then (k', v) :: rest else (k', v') :: mapAssign rest k v

/-! ## Place recognition -/

/-- Lines 169-182 of `detectLoopInMyDB`: clamp the id bound, query the local
database and compare the best score with `alpha_ * nss_factor`. -/
def queryMyDB (p : Params) (d : Deps) (s : DistributedLoopClosure)
    (bow_vector_query : BowVector) (max_possible_match_id : Int) (nss_factor : ℚ) :
    Option VertexID :=
  let max_possible_match_id : Int :=
    if max_possible_match_id < 0 then 0 else max_possible_match_id
  match d.query s.db_BoW bow_vector_query p.max_db_results max_possible_match_id with
  | [] => none
  | best_result :: _ =>
    if best_result.Score ≥ p.alpha * nss_factor then
      some (p.my_id, best_result.Id)
    else none

/-- `DistributedLoopClosure::detectLoopInMyDB` (lines 156-183). `some m` is
`return true` with `*vertex_match = m`; `none` is `return false`. -/
def detectLoopInMyDB (p : Params) (d : Deps) (s : DistributedLoopClosure)
    (vertex_query : VertexID) (bow_vector_query : BowVector) : Option VertexID :=
  let nss_factor : ℚ := p.base_nss_factor
  let max_possible_match_id : Int := (s.next_pose_id : Int) - 1
  if vertex_query.1 = p.my_id then
    let max_possible_match_id := max_possible_match_id - p.dist_local
    let nss_factor := d.score bow_vector_query s.latest_bowvec
    if nss_factor < p.min_nss_factor then none
    else queryMyDB p d s bow_vector_query max_possible_match_id nss_factor
  else queryMyDB p d s bow_vector_query max_possible_match_id nss_factor

/-- `DistributedLoopClosure::detectLoopInSharedDB` (lines 185-199). The state
is returned too: `shared_db_to_vertex_[...]` inserts a missing key. -/
def detectLoopInSharedDB (p : Params) (d : Deps) (s : DistributedLoopClosure)
    (bow_vector_query : BowVector) : Option VertexID × DistributedLoopClosure :=
  let query_result := d.query s.shared_db_BoW bow_vector_query p.max_db_results (-1)
  match query_result with
  | [] => (none, s)
  | best_result :: _ =>
    if best_result.Score ≥ p.alpha * p.base_nss_factor then
      let r := mapIndex s.shared_db_to_vertex best_result.Id
      (some r.1, { s with shared_db_to_vertex := r.2 })
    else (none, s)

/-! ## Geometric verification -/

/-- `DistributedLoopClosure::requestVLCFrame` (lines 201-224). A frame that is
not stored is asked from the service (logged in `frame_requests`); the two
assertions compare the ids of the response with the request. -/
def requestVLCFrame (d : Deps) (vertex_id : VertexID) (s : DistributedLoopClosure) :
    Outcome Unit :=
  match mapFind s.vlc_frames vertex_id with
  | some _ => .ok () s
  | none =>
    let robot_id := vertex_id.1
    let pose_id := vertex_id.2
    let s := { s with frame_requests := s.frame_requests ++ [vertex_id] }
    let frame := (d.frame_query vertex_id).2
    if frame.robot_id ≠ robot_id then .fatal s
    else if frame.pose_id ≠ pose_id then .fatal s
    else .ok () { s with vlc_frames := mapAssign s.vlc_frames vertex_id frame }

/-- The loop of `ComputeMatchedIndices` (lines 239-244): Lowe's ratio test on
the two nearest neighbours. `match.at(0)` and `match.at(1)` throw when the
matcher gave fewer than two neighbours (`none`). -/
def loweFilter (lowe_ratio : ℚ) : List (List DMatch) → Option (List Nat × List Nat)
  | [] => some ([], [])
  | (m0 :: m1 :: _) :: rest =>
    match loweFilter lowe_ratio rest with
    | none => none
    | some (i_query, i_match) =>
      if m0.distance < lowe_ratio * m1.distance then
        some (m0.queryIdx :: i_query, m0.trainIdx :: i_match)
      else some (i_query, i_match)
  | _ :: _ => none

/-- `DistributedLoopClosure::ComputeMatchedIndices` (lines 226-245), a const
member: the index lists `i_query`, `i_match`, or `none` when it throws (or
reads a frame that is not stored). -/
def ComputeMatchedIndices (p : Params) (d : Deps) (s : DistributedLoopClosure)
    (vertex_query vertex_match : VertexID) : Option (List Nat × List Nat) :=
  match mapFind s.vlc_frames vertex_query, mapFind s.vlc_frames vertex_match with
  | some frame_query, some frame_match =>
    loweFilter p.lowe_ratio
      (d.knnMatch frame_query.descriptors_mat frame_match.descriptors_mat)
  | _, _ => none

/-- The loop of `recoverPose` at lines 267-270 over the index pairs
`(i_query[i], i_match[i])`: it fills `f_cur` and `f_ref`;
`keypoints_.at(...)` throws on an index out of range. The result is
`(f_ref, f_cur)`. -/
def collectKeypoints (vertex_query vertex_match : VertexID) :
    List (Nat × Nat) → DistributedLoopClosure → Outcome (List Point3 × List Point3)
  | [], s => .ok ([], []) s
  | (iq, im) :: rest, s =>
    let rq := mapIndex s.vlc_frames vertex_query
    let s := { s with vlc_frames := rq.2 }
    match rq.1.keypoints[iq]? with
    | none => .fatal s
    | some pc =>
      let rm := mapIndex s.vlc_frames vertex_match
      let s := { s with vlc_frames := rm.2 }
      match rm.1.keypoints[im]? with
      | none => .fatal s
      | some pr =>
        match collectKeypoints vertex_query vertex_match rest s with
        | .fatal s => .fatal s
        | .ok (f_ref, f_cur) s => .ok (pr :: f_ref, pc :: f_cur) s

/-- The comparison `inlier_percentage < min_inlier_percentage` of lines
292-294 for `k` inliers of `N` correspondences. For `N = 0` the double
division gives NaN or +infinity and the comparison is false. -/
def inlier_percentage_below (k N : Nat) (min_pct : ℚ) : Bool :=
  decide (N ≠ 0) && decide ((k : ℚ) / (N : ℚ) < min_pct)

/-- Lines 303-304: `gtsam::Pose3(Rot3(T.block<3,3>(0,0)), Point3(T(0,3), T(1,3), T(2,3)))`. -/
def poseOfTransformation (T : transformation_t) : Pose3 :=
  { rotation := fun i j => T i (Fin.castSucc j)
    translation := fun i => T i 3 }

/-- Lines 256-270 of `recoverPose`: announce the candidate, fetch both frames,
match descriptors and gather the matched keypoints `(f_ref, f_cur)`. -/
def matchedKeypoints (p : Params) (d : Deps) (vertex_query vertex_match : VertexID)
    (s : DistributedLoopClosure) : Outcome (List Point3 × List Point3) :=
  let s := { s with checked := s.checked ++ [(vertex_query, vertex_match)] }
  match requestVLCFrame d vertex_query s with
  | .fatal s => .fatal s
  | .ok _ s =>
    match requestVLCFrame d vertex_match s with
    | .fatal s => .fatal s
    | .ok _ s =>
      match ComputeMatchedIndices p d s vertex_query vertex_match with
      | none => .fatal s
      | some (i_query, i_match) =>
        if i_query.length ≠ i_match.length then .fatal s
        else collectKeypoints vertex_query vertex_match (i_query.zip i_match) s

/-- `DistributedLoopClosure::recoverPose` (lines 247-312). `some T` is
`return true` with `*T_query_match = T`; `none` is `return false`. -/
def recoverPose (p : Params) (d : Deps) (vertex_query vertex_match : VertexID)
    (s : DistributedLoopClosure) : Outcome (Option Pose3) :=
  match matchedKeypoints p d vertex_query vertex_match s with
  | .fatal s => .fatal s
  | .ok (f_ref, f_cur) s =>
    let ransac := d.computeModel p.max_ransac_iterations p.ransac_threshold f_ref f_cur
    if ransac.success then
      if ransac.inliers.length < p.geometric_verification_min_inlier_count then
        .ok none s
      else if inlier_percentage_below ransac.inliers.length f_ref.length
          p.geometric_verification_min_inlier_percentage then
        .ok none s
      else .ok (some (poseOfTransformation ransac.model_coefficients)) s
    else .ok none s

/-! ## The BoW callback -/

/-- Lines 121-126 and 132-137 of `bowCallback`: verify a candidate and, when
it is accepted, store and publish the edge. -/
def verifyCandidate (p : Params) (d : Deps) (vertex_query vertex_match : VertexID)
    (s : DistributedLoopClosure) : Outcome Unit :=
  match recoverPose p d vertex_query vertex_match s with
  | .fatal s => .fatal s
  | .ok none s => .ok () s
  | .ok (some T_query_match) s =>
    let edge : VLCEdge := ⟨vertex_query, vertex_match, T_query_match⟩
    let s := { s with loop_closures := s.loop_closures ++ [edge] }
    .ok () { s with published := s.published ++ [edge] }

/-- Lines 119-127: detection against the robot's own trajectory. -/
def detectInMyTrajectory (p : Params) (d : Deps) (msg : BowQuery)
    (s : DistributedLoopClosure) : Outcome Unit :=
  match detectLoopInMyDB p d s (msg.robot_id, msg.pose_id) msg.bow_vector with
  | some vertex_match => verifyCandidate p d (msg.robot_id, msg.pose_id) vertex_match s
  | none => .ok () s

/-- Lines 129-139: detection against the other robots' trajectories. -/
def detectInOtherTrajectories (p : Params) (d : Deps) (msg : BowQuery)
    (s : DistributedLoopClosure) : Outcome Unit :=
  if msg.robot_id = p.my_id then
    match detectLoopInSharedDB p d s msg.bow_vector with
    | (some vertex_match, s) =>
      verifyCandidate p d (msg.robot_id, msg.pose_id) vertex_match s
    | (none, s) => .ok () s
  else .ok () s

/-- Lines 144-153: add the vector to the local or to the shared database.
`add` returns the number of entries stored before. -/
def addBowVector (p : Params) (msg : BowQuery) (s : DistributedLoopClosure) :
    Outcome Unit :=
  if msg.robot_id = p.my_id then
    if msg.pose_id ≠ s.next_pose_id then .fatal s
    else
      let entry_id := s.db_BoW.length
      let s := { s with db_BoW := s.db_BoW ++ [msg.bow_vector] }
      if entry_id ≠ s.next_pose_id then .fatal s
      else
        let s := { s with latest_bowvec := msg.bow_vector }
        .ok () { s with next_pose_id := s.next_pose_id + 1 }
  else
    let db_index := s.shared_db_BoW.length
    let s := { s with shared_db_BoW := s.shared_db_BoW ++ [msg.bow_vector] }
    let vertex_query : VertexID := (msg.robot_id, msg.pose_id)
    .ok () { s with
      shared_db_to_vertex := mapAssign s.shared_db_to_vertex db_index vertex_query }

/-- `DistributedLoopClosure::bowCallback` (lines 108-154). -/
def bowCallback (p : Params) (d : Deps) (msg : BowQuery) (s : DistributedLoopClosure) :
    Outcome Unit :=
  if msg.robot_id < p.my_id then .fatal s
  else
    match detectInMyTrajectory p d msg s with
    | .fatal s => .fatal s
    | .ok _ s =>
      match detectInOtherTrajectories p d msg s with
      | .fatal s => .fatal s
      | .ok _ s => addBowVector p msg s

/-- The callback run on a queue of messages; it stops at the first abort. -/
def runBow (p : Params) (d : Deps) : List BowQuery → DistributedLoopClosure → Outcome Unit
  | [], s => .ok () s
  | msg :: rest, s =>
    match bowCallback p d msg s with
    | .fatal s => .fatal s
    | .ok _ s => runBow p d rest s

/-! ## Specification side definitions -/

/-- Specification side: the local detection rule of spec 4.6-A, in the spec's
words. -/
def localDetectionRule (p : Params) (d : Deps) (s : DistributedLoopClosure)
    (q : VertexID) (v : BowVector) : Option VertexID :=
  let nss : ℚ := if q.1 = p.my_id then d.score v s.latest_bowvec else p.base_nss_factor
  if q.1 = p.my_id ∧ nss < p.min_nss_factor then none
  else
    let max_id : Int :=
      if q.1 = p.my_id then max 0 ((s.next_pose_id : Int) - p.dist_local - 1)
      else max 0 ((s.next_pose_id : Int) - 1)
    match d.query s.db_BoW v p.max_db_results max_id with
    | [] => none
    | top :: _ => if top.Score ≥ p.alpha * nss then some (p.my_id, top.Id) else none

/-- Every frame asked from the service was asked once and is stored. -/
def FetchedOnce (s : DistributedLoopClosure) : Prop :=
  s.frame_requests.Nodup ∧ ∀ v ∈ s.frame_requests, mapFind s.vlc_frames v ≠ none

/-- Every stored frame of `s` is stored unchanged in `s'`. -/
def StoreKept (s s' : DistributedLoopClosure) : Prop :=
  ∀ k f, mapFind s.vlc_frames k = some f → mapFind s'.vlc_frames k = some f

/-- The members that place recognition reads and `bowCallback` maintains:
`next_pose_id_`, the two databases, `latest_bowvec_` and the side map. -/
def DistributedLoopClosure.dbView (s : DistributedLoopClosure) :
    PoseID × List BowVector × List BowVector × BowVector × List (Nat × VertexID) :=
  (s.next_pose_id, s.db_BoW, s.shared_db_BoW, s.latest_bowvec, s.shared_db_to_vertex)

/-- The vertex `(robot_id, pose_id)` a message is about. -/
def BowQuery.vertex (msg : BowQuery) : VertexID := (msg.robot_id, msg.pose_id)

/-- The messages of the robot itself, in arrival order. -/
def selfMsgs (p : Params) (msgs : List BowQuery) : List BowQuery :=
  msgs.filter (fun msg => decide (msg.robot_id = p.my_id))

/-- The messages of the other robots, in arrival order. -/
def peerMsgs (p : Params) (msgs : List BowQuery) : List BowQuery :=
  msgs.filter (fun msg => decide (msg.robot_id ≠ p.my_id))

/-- Every lookup that succeeds in `m` gives the same value in `m'`. -/
def MapKept {K V : Type} [DecidableEq K] (m m' : List (K × V)) : Prop :=
  ∀ k v, mapFind m k = some v → mapFind m' k = some v

/-- The databases of `s'` are those of `s`; the side map may have gained keys. -/
def DBKept (s s' : DistributedLoopClosure) : Prop :=
  s'.next_pose_id = s.next_pose_id ∧ s'.db_BoW = s.db_BoW ∧
    s'.shared_db_BoW = s.shared_db_BoW ∧ s'.latest_bowvec = s.latest_bowvec ∧
    MapKept s.shared_db_to_vertex s'.shared_db_to_vertex

/-- The databases of `s` are what the processed messages `msgs` built: the
local database holds the vectors of the own messages, whose pose ids were
`0, 1, ...` in order; the shared database holds the vectors of the other
robots' messages and the side map sends index `i` to the vertex of the
`i`-th of them; no message came from a robot below `my_id`. -/
def Ingested (p : Params) (msgs : List BowQuery) (s : DistributedLoopClosure) : Prop :=
  s.db_BoW = (selfMsgs p msgs).map (·.bow_vector) ∧
    s.next_pose_id = (selfMsgs p msgs).length ∧
    s.latest_bowvec = (((selfMsgs p msgs).map (·.bow_vector)).getLast?).getD [] ∧
    (selfMsgs p msgs).map (·.pose_id) = List.range (selfMsgs p msgs).length ∧
    (∀ msg ∈ msgs, p.my_id ≤ msg.robot_id) ∧
    s.shared_db_BoW = (peerMsgs p msgs).map (·.bow_vector) ∧
    ∀ i msg, (peerMsgs p msgs)[i]? = some msg →
      mapFind s.shared_db_to_vertex i = some msg.vertex

/-- The candidate pairs a detection result stands for. -/
def candidateOf (q : VertexID) : Option VertexID → List (VertexID × VertexID)
  | some m => [(q, m)]
  | none => []

/-- Contract of the database: a query returns ids of stored entries, and no
id above a non-negative `max_id`. -/
def QueryInRange (d : Deps) : Prop :=
  ∀ db v max_results max_id, ∀ r ∈ d.query db v max_results max_id,
    r.Id < db.length ∧ (0 ≤ max_id → (r.Id : Int) ≤ max_id)

/-- Specification side: the shared detection rule of spec 4.6-B, in the
spec's words, over the other robots' messages `peers` in insertion order:
the match is the vertex of the message that was given the best result's
index. -/
def sharedDetectionRule (p : Params) (d : Deps) (peers : List BowQuery) (v : BowVector) :
    Option VertexID :=
  match d.query (peers.map (·.bow_vector)) v p.max_db_results (-1) with
  | [] => none
  | top :: _ =>
    if top.Score ≥ p.alpha * p.base_nss_factor then (peers[top.Id]?).map (·.vertex)
    else none

/-! ## A reference deployment for the examples -/

/-- Reference vocabulary score within the contract of spec 4.1 (DBoW2 is an
external library): identical vectors score 1, any two
other vectors score 0. -/
def refScore (a b : BowVector) : ℚ := if a = b then 1 else 0

/-- Insert a result into a list ordered by descending score; among equal
scores the new result comes first. -/
def insertResult (r : Result) : List Result → List Result
  | [] => [r]
  | x :: rest => if x.Score ≤ r.Score then r :: x :: rest else x :: insertResult r rest

/-- Score the entries `i, i + 1, ...` of a database against `v`, keeping the
ids allowed by `max_id`, ordered by descending score and then ascending id. -/
def scoreEntries (score : BowVector → BowVector → ℚ) (v : BowVector) (max_id : Int) :
    List BowVector → Nat → List Result
  | [], _ => []
  | e :: rest, i =>
    if max_id < 0 ∨ (i : Int) ≤ max_id then
      insertResult ⟨i, score v e⟩ (scoreEntries score v max_id rest (i + 1))
    else scoreEntries score v max_id rest (i + 1)

/-- Reference database query meeting the contract of spec 4.1 (DBoW2 is an
external library): up to `max_results` results by descending score, ties by
ascending index, restricted to indices `≤ max_id`, unrestricted for a
negative `max_id`. -/
def refQuery (score : BowVector → BowVector → ℚ) (db : List BowVector) (v : BowVector)
    (max_results max_id : Int) : List Result :=
  let sorted := scoreEntries score v max_id db 0
  if 0 < max_results then sorted.take max_results.toNat else sorted

/-- The identity transformation `[I | 0]`. -/
def identityTransformation : transformation_t :=
  fun i j => if i.val = j.val then 1 else 0

/-- A frame with one keypoint at the origin and one descriptor row. -/
def unitFrame (v : VertexID) : VLCFrame := ⟨v.1, v.2, [(0, 0, 0)], [[0]]⟩

/-- Reference collaborators: the reference score and query, a frame service
that answers every request with a one-keypoint frame, a matcher that
reports `n` keypoint matches passing the ratio test, and a RANSAC that
reports `ransac`. -/
def refDeps (n : Nat) (ransac : RansacOutcome) : Deps where
  score := refScore
  query := refQuery refScore
  frame_query := fun v => (true, unitFrame v)
  knnMatch := fun _ _ => List.replicate n [⟨0, 0, 1⟩, ⟨0, 0, 2⟩]
  computeModel := fun _ _ _ _ => ransac

/-- A RANSAC that did not converge. -/
def noModel : RansacOutcome := ⟨false, [], identityTransformation⟩

/-- A RANSAC that converged on the identity with `k` inliers. -/
def converged (k : Nat) : RansacOutcome := ⟨true, List.range k, identityTransformation⟩

/-- The parameters of the scenarios of spec section 8, for robot `my_id`. -/
def refParams (my_id : RobotID) : Params where
  my_id := my_id
  alpha := 1 / 2
  dist_local := 5
  max_db_results := 2
  base_nss_factor := 1 / 5
  min_nss_factor := 3 / 10
  lowe_ratio := 4 / 5
  max_ransac_iterations := 100
  ransac_threshold := 1 / 100
  geometric_verification_min_inlier_count := 10
  geometric_verification_min_inlier_percentage := 3 / 10

/-- The BoW vector with the single word `n`. -/
def word (n : Nat) : BowVector := [(n, 1)]

/-- The reference parameters of robot 0 with another absolute inlier floor. -/
def floorParams (min_inlier_count : Nat) : Params :=
  { refParams 0 with geometric_verification_min_inlier_count := min_inlier_count }

/-- The state after `recoverPose` verified the pair `(0, 3)`, `(1, 7)` from the
initial state in the reference deployment: both frames fetched and stored. -/
def verifiedState : DistributedLoopClosure :=
  { DistributedLoopClosure.init with
    vlc_frames := [((0, 3), unitFrame (0, 3)), ((1, 7), unitFrame (1, 7))]
    checked := [((0, 3), (1, 7))]
    frame_requests := [(0, 3), (1, 7)] }

/-- Geometric verification never aborts: the frame service answers with the
frame that was asked for and the matcher's indices are within the frames. -/
def VerificationReturns (p : Params) (d : Deps) : Prop :=
  ∀ q m s, (recoverPose p d q m s).returned = true

/-- A message queue the callback accepts: no message of a robot below
`my_id`, and the own messages carry the pose ids `0, 1, ...` in order. -/
def InSequence (p : Params) (msgs : List BowQuery) : Prop :=
  (∀ msg ∈ msgs, p.my_id ≤ msg.robot_id) ∧
    (selfMsgs p msgs).map (·.pose_id) = List.range (selfMsgs p msgs).length

/-- A queue for robot 0: own poses 0, 1, 2 between messages of robots 1 and 2. -/
def mixedMsgs : List BowQuery :=
  [⟨0, 0, word 0⟩, ⟨1, 4, word 9⟩, ⟨0, 1, word 1⟩, ⟨2, 0, word 3⟩, ⟨0, 2, word 2⟩]

/-- The state of robot 0 after `mixedMsgs` in the reference deployment. -/
def mixedState : DistributedLoopClosure :=
  { DistributedLoopClosure.init with
    next_pose_id := 3
    db_BoW := [word 0, word 1, word 2]
    latest_bowvec := word 2
    shared_db_BoW := [word 9, word 3]
    shared_db_to_vertex := [(0, (1, 4)), (1, (2, 0))] }

/-- The state of robot 0 after the message of robot 1 for its pose 7 with the
vector `word 0`. -/
def peerState : DistributedLoopClosure :=
  { DistributedLoopClosure.init with
    shared_db_BoW := [word 0]
    shared_db_to_vertex := [(0, (1, 7))] }

/-- The state of robot 0 after its own pose 0 with the vector `word 0`. -/
def firstState : DistributedLoopClosure :=
  { DistributedLoopClosure.init with
    next_pose_id := 1
    db_BoW := [word 0]
    latest_bowvec := word 0 }

section maps
variable {K V : Type} [DecidableEq K]

theorem mapFind_mapAssign_self (m : List (K × V)) (k : K) (v : V) :
    mapFind (mapAssign m k v) k = some v := by
  induction m with
  | nil => simp [mapAssign, mapFind]
  | cons e rest ih =>
    obtain ⟨k', v'⟩ := e
    by_cases h : k' = k
    · simp [mapAssign, mapFind, h]
    · simp [mapAssign, mapFind, h, ih]

theorem mapFind_mapAssign_of_ne (m : List (K × V)) (k k' : K) (v : V) (h : k ≠ k') :
    mapFind (mapAssign m k v) k' = mapFind m k' := by
  induction m with
  | nil => simp [mapAssign, mapFind, h]
  | cons e rest ih =>
    obtain ⟨k₁, v₁⟩ := e
    by_cases h1 : k₁ = k
    · subst h1
      simp [mapAssign, mapFind, h]
    · by_cases h2 : k₁ = k'
      · subst h2
        simp [mapAssign, mapFind, h1]
      · simp [mapAssign, mapFind, h1, h2, ih]

theorem mapFind_append_of_some (m l : List (K × V)) (k : K) (v : V)
    (h : mapFind m k = some v) : mapFind (m ++ l) k = some v := by
  induction m with
  | nil => simp [mapFind] at h
  | cons e rest ih =>
    obtain ⟨k₁, v₁⟩ := e
    by_cases h1 : k₁ = k
    · simpa [mapFind, h1] using h
    · simp only [mapFind, h1, if_false] at h
      simpa [mapFind, h1] using ih h

theorem mapIndex_of_some [Inhabited V] (m : List (K × V)) (k : K) (v : V)
    (h : mapFind m k = some v) : mapIndex m k = (v, m) := by
  simp [mapIndex, h]

theorem mapFind_mapIndex_of_some [Inhabited V] (m : List (K × V)) (k k' : K) (v : V)
    (h : mapFind m k' = some v) : mapFind (mapIndex m k).2 k' = some v := by
  unfold mapIndex
  cases hk : mapFind m k with
  | some v' => simpa using h
  | none => simpa using mapFind_append_of_some m _ k' v h

end maps

theorem storeKept_refl (s : DistributedLoopClosure) : StoreKept s s := fun _ _ h => h

theorem storeKept_trans {s₁ s₂ s₃ : DistributedLoopClosure}
    (h₁ : StoreKept s₁ s₂) (h₂ : StoreKept s₂ s₃) : StoreKept s₁ s₃ :=
  fun k f h => h₂ k f (h₁ k f h)

theorem fetchedOnce_of_kept {s s' : DistributedLoopClosure} (h : FetchedOnce s)
    (hr : s'.frame_requests = s.frame_requests) (hk : StoreKept s s') : FetchedOnce s' := by
  refine ⟨by rw [hr]; exact h.1, ?_⟩
  intro v hv
  rw [hr] at hv
  have := h.2 v hv
  cases hf : mapFind s.vlc_frames v with
  | none => exact absurd hf this
  | some f => rw [hk v f hf]; simp

/-- After a call that returns, the frame is stored. -/
theorem requestVLCFrame_stored (d : Deps) (v : VertexID) (s s' : DistributedLoopClosure)
    (h : requestVLCFrame d v s = .ok () s') : mapFind s'.vlc_frames v ≠ none := by
  unfold requestVLCFrame at h
  cases hf : mapFind s.vlc_frames v with
  | some f =>
    rw [hf] at h
    simp only [Outcome.ok.injEq, true_and] at h
    subst h
    simp [hf]
  | none =>
    rw [hf] at h
    simp only at h
    split at h
    · simp at h
    · split at h
      · simp at h
      · simp only [Outcome.ok.injEq, true_and] at h
        subst h
        simp [mapFind_mapAssign_self]

theorem requestVLCFrame_kept (d : Deps) (v : VertexID) (s : DistributedLoopClosure) :
    StoreKept s (requestVLCFrame d v s).state := by
  intro k f hk
  unfold requestVLCFrame
  cases hf : mapFind s.vlc_frames v with
  | some f' => simpa [Outcome.state] using hk
  | none =>
    have hne : v ≠ k := by
      rintro rfl
      rw [hf] at hk
      simp at hk
    simp only
    split
    · simpa [Outcome.state] using hk
    · split
      · simpa [Outcome.state] using hk
      · simpa [Outcome.state, mapFind_mapAssign_of_ne _ _ _ _ hne] using hk

theorem requestVLCFrame_requests (d : Deps) (v : VertexID) (s : DistributedLoopClosure) :
    (requestVLCFrame d v s).state.frame_requests =
      if mapFind s.vlc_frames v = none then s.frame_requests ++ [v] else s.frame_requests := by
  unfold requestVLCFrame
  cases hf : mapFind s.vlc_frames v with
  | some f' => simp [Outcome.state]
  | none =>
    simp only
    split
    · simp [Outcome.state]
    · split <;> simp [Outcome.state]

theorem requestVLCFrame_nodup (d : Deps) (v : VertexID) (s : DistributedLoopClosure)
    (h : FetchedOnce s) : (requestVLCFrame d v s).state.frame_requests.Nodup := by
  rw [requestVLCFrame_requests]
  split
  · rename_i hf
    rw [List.nodup_append]
    refine ⟨h.1, List.nodup_singleton v, ?_⟩
    intro a ha hb
    simp only [List.mem_singleton] at hb
    subst hb
    exact h.2 a ha hf
  · exact h.1

theorem requestVLCFrame_fetchedOnce (d : Deps) (v : VertexID) (s s' : DistributedLoopClosure)
    (h : FetchedOnce s) (hs : requestVLCFrame d v s = .ok () s') : FetchedOnce s' := by
  have hn := requestVLCFrame_nodup d v s h
  have hr := requestVLCFrame_requests d v s
  have hk := requestVLCFrame_kept d v s
  have hst := requestVLCFrame_stored d v s s' hs
  rw [hs] at hn hr hk
  simp only [Outcome.state] at hn hr hk
  refine ⟨hn, ?_⟩
  intro u hu
  rw [hr] at hu
  by_cases huv : u = v
  · subst huv; exact hst
  · have hu' : u ∈ s.frame_requests := by
      split at hu
      · simpa [huv] using hu
      · exact hu
    have := h.2 u hu'
    cases hf : mapFind s.vlc_frames u with
    | none => exact absurd hf this
    | some f => rw [hk u f hf]; simp

/-! ## Place recognition and the inlier gate -/

theorem clamp_eq_max (x : Int) : (if x < 0 then 0 else x) = max 0 x := by
  split
  · rw [max_eq_left]; omega
  · rw [max_eq_right]; omega

theorem inlier_percentage_below_pos (k N : Nat) (pct : ℚ) (hN : 0 < N) :
    inlier_percentage_below k N pct = decide ((k : ℚ) / (N : ℚ) < pct) := by
  have : N ≠ 0 := by omega
  simp [inlier_percentage_below, this]

/-- The acceptance decision of `recoverPose` once the matched keypoints are at hand. -/
theorem recoverPose_of_matchedKeypoints (p : Params) (d : Deps) (q m : VertexID)
    (s s' : DistributedLoopClosure) (f_ref f_cur : List Point3)
    (h : matchedKeypoints p d q m s = .ok (f_ref, f_cur) s') :
    recoverPose p d q m s =
      .ok (if (d.computeModel p.max_ransac_iterations p.ransac_threshold f_ref f_cur).success = true
            ∧ p.geometric_verification_min_inlier_count ≤
                (d.computeModel p.max_ransac_iterations p.ransac_threshold f_ref f_cur).inliers.length
            ∧ inlier_percentage_below
                (d.computeModel p.max_ransac_iterations p.ransac_threshold f_ref f_cur).inliers.length
                f_ref.length p.geometric_verification_min_inlier_percentage = false
          then some (poseOfTransformation
            (d.computeModel p.max_ransac_iterations p.ransac_threshold f_ref f_cur).model_coefficients)
          else none) s' := by
  unfold recoverPose
  rw [h]
  simp only
  generalize d.computeModel p.max_ransac_iterations p.ransac_threshold f_ref f_cur = r
  by_cases h1 : r.success = true
  · by_cases h2 : r.inliers.length < p.geometric_verification_min_inlier_count
    · have : ¬ p.geometric_verification_min_inlier_count ≤ r.inliers.length := by omega
      simp [h1, h2, this]
    · have h2' : p.geometric_verification_min_inlier_count ≤ r.inliers.length := by omega
      cases h3 : inlier_percentage_below r.inliers.length f_ref.length
          p.geometric_verification_min_inlier_percentage <;> simp [h1, h2, h2', h3]
  · simp [h1]

theorem requestVLCFrame_dbView (d : Deps) (v : VertexID) (s : DistributedLoopClosure) :
    (requestVLCFrame d v s).state.dbView = s.dbView ∧
      (requestVLCFrame d v s).state.checked = s.checked := by
  unfold requestVLCFrame
  cases hf : mapFind s.vlc_frames v with
  | some f' => simp [Outcome.state]
  | none =>
    simp only
    split
    · simp [Outcome.state, DistributedLoopClosure.dbView]
    · split <;> simp [Outcome.state, DistributedLoopClosure.dbView]

theorem collectKeypoints_state (q m : VertexID) (pairs : List (Nat × Nat))
    (s : DistributedLoopClosure) :
    (collectKeypoints q m pairs s).state.dbView = s.dbView ∧
      (collectKeypoints q m pairs s).state.checked = s.checked ∧
      (collectKeypoints q m pairs s).state.frame_requests = s.frame_requests ∧
      StoreKept s (collectKeypoints q m pairs s).state := by
  induction pairs generalizing s with
  | nil => exact ⟨rfl, rfl, rfl, storeKept_refl s⟩
  | cons e rest ih =>
    obtain ⟨iq, im⟩ := e
    have k1 : StoreKept s { s with vlc_frames := (mapIndex s.vlc_frames q).2 } :=
      fun k f h => mapFind_mapIndex_of_some _ _ _ _ h
    have k2 : StoreKept s { s with vlc_frames :=
        (mapIndex (mapIndex s.vlc_frames q).2 m).2 } :=
      fun k f h => mapFind_mapIndex_of_some _ _ _ _ (mapFind_mapIndex_of_some _ _ _ _ h)
    unfold collectKeypoints
    simp only
    cases h1 : (mapIndex s.vlc_frames q).1.keypoints[iq]? with
    | none => exact ⟨rfl, rfl, rfl, k1⟩
    | some pc =>
      simp only
      cases h2 : (mapIndex (mapIndex s.vlc_frames q).2 m).1.keypoints[im]? with
      | none => exact ⟨rfl, rfl, rfl, k2⟩
      | some pr =>
        simp only
        have := ih { s with vlc_frames := (mapIndex (mapIndex s.vlc_frames q).2 m).2 }
        cases h3 : collectKeypoints q m rest
            { s with vlc_frames := (mapIndex (mapIndex s.vlc_frames q).2 m).2 } with
        | fatal s3 =>
          rw [h3] at this
          exact ⟨this.1, this.2.1, this.2.2.1, storeKept_trans k2 this.2.2.2⟩
        | ok r s3 =>
          rw [h3] at this
          obtain ⟨f_ref, f_cur⟩ := r
          exact ⟨this.1, this.2.1, this.2.2.1, storeKept_trans k2 this.2.2.2⟩

/-- The keypoint lists have one entry per index pair. -/
theorem collectKeypoints_length (q m : VertexID) (pairs : List (Nat × Nat))
    (s s' : DistributedLoopClosure) (f_ref f_cur : List Point3)
    (h : collectKeypoints q m pairs s = .ok (f_ref, f_cur) s') :
    f_ref.length = pairs.length ∧ f_cur.length = pairs.length := by
  induction pairs generalizing s s' f_ref f_cur with
  | nil =>
    simp only [collectKeypoints, Outcome.ok.injEq, Prod.mk.injEq] at h
    obtain ⟨⟨rfl, rfl⟩, -⟩ := h
    simp
  | cons e rest ih =>
    obtain ⟨iq, im⟩ := e
    unfold collectKeypoints at h
    simp only at h
    split at h
    · simp at h
    · split at h
      · simp at h
      · split at h
        · simp at h
        · rename_i fr fc s3 h3
          simp only [Outcome.ok.injEq, Prod.mk.injEq] at h
          obtain ⟨⟨rfl, rfl⟩, -⟩ := h
          have := ih _ _ _ _ h3
          simp [this.1, this.2]

theorem matchedKeypoints_state (p : Params) (d : Deps) (q m : VertexID)
    (s : DistributedLoopClosure) :
    (matchedKeypoints p d q m s).state.dbView = s.dbView ∧
      (matchedKeypoints p d q m s).state.checked = s.checked ++ [(q, m)] ∧
      StoreKept s (matchedKeypoints p d q m s).state ∧
      (FetchedOnce s → (matchedKeypoints p d q m s).state.frame_requests.Nodup ∧
        ((matchedKeypoints p d q m s).returned = true →
          FetchedOnce (matchedKeypoints p d q m s).state)) := by
  have a1 := requestVLCFrame_dbView d q { s with checked := s.checked ++ [(q, m)] }
  have a2 := requestVLCFrame_kept d q { s with checked := s.checked ++ [(q, m)] }
  have a3 := requestVLCFrame_nodup d q { s with checked := s.checked ++ [(q, m)] }
  have a4 := requestVLCFrame_fetchedOnce d q { s with checked := s.checked ++ [(q, m)] }
  have f0 : FetchedOnce s → FetchedOnce { s with checked := s.checked ++ [(q, m)] } := fun h => h
  have k0 : StoreKept s { s with checked := s.checked ++ [(q, m)] } := fun _ _ h => h
  unfold matchedKeypoints
  simp only
  cases h1 : requestVLCFrame d q { s with checked := s.checked ++ [(q, m)] } with
  | fatal s1 =>
    rw [h1] at a1 a2 a3
    simp only [Outcome.state] at a1 a2 a3 ⊢
    exact ⟨a1.1, a1.2, storeKept_trans k0 a2, fun h => ⟨a3 (f0 h), by simp [Outcome.returned]⟩⟩
  | ok u s1 =>
    rw [h1] at a1 a2 a3
    simp only [Outcome.state] at a1 a2 a3
    have f1 : FetchedOnce s → FetchedOnce s1 := fun h => a4 s1 (f0 h) h1
    have b1 := requestVLCFrame_dbView d m s1
    have b2 := requestVLCFrame_kept d m s1
    have b3 := requestVLCFrame_nodup d m s1
    have b4 := requestVLCFrame_fetchedOnce d m s1
    simp only
    cases h2 : requestVLCFrame d m s1 with
    | fatal s2 =>
      rw [h2] at b1 b2 b3
      simp only [Outcome.state] at b1 b2 b3 ⊢
      exact ⟨b1.1.trans a1.1, b1.2.trans a1.2, storeKept_trans (storeKept_trans k0 a2) b2,
        fun h => ⟨b3 (f1 h), by simp [Outcome.returned]⟩⟩
    | ok u' s2 =>
      rw [h2] at b1 b2 b3
      simp only [Outcome.state] at b1 b2 b3
      have f2 : FetchedOnce s → FetchedOnce s2 := fun h => b4 s2 (f1 h) h2
      have base : s2.dbView = s.dbView ∧ s2.checked = s.checked ++ [(q, m)] ∧ StoreKept s s2 ∧
          (FetchedOnce s → s2.frame_requests.Nodup) :=
        ⟨b1.1.trans a1.1, b1.2.trans a1.2, storeKept_trans (storeKept_trans k0 a2) b2, fun h => (f2 h).1⟩
      simp only
      cases h3 : ComputeMatchedIndices p d s2 q m with
      | none =>
        simp only [Outcome.state]
        exact ⟨base.1, base.2.1, base.2.2.1, fun h => ⟨base.2.2.2 h, by simp [Outcome.returned]⟩⟩
      | some idx =>
        obtain ⟨i_query, i_match⟩ := idx
        simp only
        split
        · simp only [Outcome.state]
          exact ⟨base.1, base.2.1, base.2.2.1,
            fun h => ⟨base.2.2.2 h, by simp [Outcome.returned]⟩⟩
        · have c := collectKeypoints_state q m (i_query.zip i_match) s2
          exact ⟨c.1.trans base.1, c.2.1.trans base.2.1, storeKept_trans base.2.2.1 c.2.2.2,
            fun h => ⟨by rw [c.2.2.1]; exact base.2.2.2 h,
              fun _ => fetchedOnce_of_kept (f2 h) c.2.2.1 c.2.2.2⟩⟩

theorem recoverPose_state (p : Params) (d : Deps) (q m : VertexID)
    (s : DistributedLoopClosure) :
    (recoverPose p d q m s).state = (matchedKeypoints p d q m s).state ∧
      (recoverPose p d q m s).returned = (matchedKeypoints p d q m s).returned := by
  unfold recoverPose
  cases h : matchedKeypoints p d q m s with
  | fatal s1 => simp [Outcome.state, Outcome.returned]
  | ok r s1 =>
    obtain ⟨f_ref, f_cur⟩ := r
    simp only
    split
    · split
      · simp [Outcome.state, Outcome.returned]
      · split <;> simp [Outcome.state, Outcome.returned]
    · simp [Outcome.state, Outcome.returned]

theorem verifyCandidate_state (p : Params) (d : Deps) (q m : VertexID)
    (s : DistributedLoopClosure) :
    (verifyCandidate p d q m s).state.dbView = s.dbView ∧
      (verifyCandidate p d q m s).state.checked = s.checked ++ [(q, m)] ∧
      (verifyCandidate p d q m s).state.vlc_frames = (matchedKeypoints p d q m s).state.vlc_frames ∧
      (verifyCandidate p d q m s).state.frame_requests =
        (matchedKeypoints p d q m s).state.frame_requests ∧
      (verifyCandidate p d q m s).returned = (matchedKeypoints p d q m s).returned := by
  have hm := matchedKeypoints_state p d q m s
  have hr := recoverPose_state p d q m s
  rw [← hr.1, ← hr.2] at hm ⊢
  unfold verifyCandidate
  cases h : recoverPose p d q m s with
  | fatal s1 =>
    rw [h] at hm
    exact ⟨hm.1, hm.2.1, rfl, rfl, rfl⟩
  | ok r s1 =>
    rw [h] at hm
    cases r with
    | none => exact ⟨hm.1, hm.2.1, rfl, rfl, rfl⟩
    | some T => exact ⟨hm.1, hm.2.1, rfl, rfl, rfl⟩

/-! ## The BoW callback -/

theorem mapKept_refl {K V : Type} [DecidableEq K] (m : List (K × V)) : MapKept m m :=
  fun _ _ h => h

theorem dbKept_refl (s : DistributedLoopClosure) : DBKept s s :=
  ⟨rfl, rfl, rfl, rfl, mapKept_refl _⟩

theorem dbKept_trans {s₁ s₂ s₃ : DistributedLoopClosure} (h₁ : DBKept s₁ s₂)
    (h₂ : DBKept s₂ s₃) : DBKept s₁ s₃ :=
  ⟨h₂.1.trans h₁.1, h₂.2.1.trans h₁.2.1, h₂.2.2.1.trans h₁.2.2.1,
    h₂.2.2.2.1.trans h₁.2.2.2.1, fun k v h => h₂.2.2.2.2 k v (h₁.2.2.2.2 k v h)⟩

theorem dbKept_of_dbView {s s' : DistributedLoopClosure} (h : s'.dbView = s.dbView) :
    DBKept s s' := by
  simp only [DistributedLoopClosure.dbView, Prod.mk.injEq] at h
  obtain ⟨h1, h2, h3, h4, h5⟩ := h
  exact ⟨h1, h2, h3, h4, by rw [h5]; exact mapKept_refl _⟩

theorem detectInMyTrajectory_state (p : Params) (d : Deps) (msg : BowQuery)
    (s : DistributedLoopClosure) :
    (detectInMyTrajectory p d msg s).state.dbView = s.dbView ∧
      (detectInMyTrajectory p d msg s).state.checked =
        s.checked ++ candidateOf msg.vertex (detectLoopInMyDB p d s msg.vertex msg.bow_vector) := by
  unfold detectInMyTrajectory
  simp only [BowQuery.vertex]
  cases h : detectLoopInMyDB p d s (msg.robot_id, msg.pose_id) msg.bow_vector with
  | none => simp [Outcome.state, candidateOf]
  | some m =>
    have := verifyCandidate_state p d (msg.robot_id, msg.pose_id) m s
    exact ⟨this.1, this.2.1⟩

/-- The lookup `shared_db_to_vertex_[id]` can only add a key. -/
theorem detectLoopInSharedDB_state (p : Params) (d : Deps) (s : DistributedLoopClosure)
    (v : BowVector) :
    DBKept s (detectLoopInSharedDB p d s v).2 ∧
      (detectLoopInSharedDB p d s v).2.checked = s.checked ∧
      (detectLoopInSharedDB p d s v).2.vlc_frames = s.vlc_frames ∧
      (detectLoopInSharedDB p d s v).2.frame_requests = s.frame_requests := by
  unfold detectLoopInSharedDB
  simp only
  split
  · exact ⟨dbKept_refl s, rfl, rfl, rfl⟩
  · split
    · exact ⟨⟨rfl, rfl, rfl, rfl, fun k v h => mapFind_mapIndex_of_some _ _ _ _ h⟩, rfl, rfl, rfl⟩
    · exact ⟨dbKept_refl s, rfl, rfl, rfl⟩

theorem detectInOtherTrajectories_state (p : Params) (d : Deps) (msg : BowQuery)
    (s : DistributedLoopClosure) :
    DBKept s (detectInOtherTrajectories p d msg s).state ∧
      (detectInOtherTrajectories p d msg s).state.checked =
        s.checked ++ (if msg.robot_id = p.my_id then
          candidateOf msg.vertex (detectLoopInSharedDB p d s msg.bow_vector).1 else []) := by
  unfold detectInOtherTrajectories
  by_cases hr : msg.robot_id = p.my_id
  · simp only [hr, if_true]
    have hs := detectLoopInSharedDB_state p d s msg.bow_vector
    cases h : detectLoopInSharedDB p d s msg.bow_vector with
    | mk r s1 =>
      rw [h] at hs
      cases r with
      | none => simpa [Outcome.state, candidateOf] using ⟨hs.1, hs.2.1⟩
      | some m =>
        have hv := verifyCandidate_state p d (p.my_id, msg.pose_id) m s1
        simp only [BowQuery.vertex, hr, candidateOf]
        exact ⟨dbKept_trans hs.1 (dbKept_of_dbView hv.1), by rw [hv.2.1, hs.2.1]⟩
  · simp only [hr, if_false, Outcome.state, List.append_nil]
    exact ⟨dbKept_refl s, trivial⟩

/-- The state in which `bowCallback` reaches the insertion (lines 144-153). -/
theorem bowCallback_ok (p : Params) (d : Deps) (msg : BowQuery)
    (s s' : DistributedLoopClosure) (h : bowCallback p d msg s = .ok () s') :
    p.my_id ≤ msg.robot_id ∧ ∃ s1 s2, detectInMyTrajectory p d msg s = .ok () s1 ∧
      detectInOtherTrajectories p d msg s1 = .ok () s2 ∧ addBowVector p msg s2 = .ok () s' := by
  unfold bowCallback at h
  by_cases hlt : msg.robot_id < p.my_id
  · simp [hlt] at h
  · simp only [hlt, if_false] at h
    refine ⟨Nat.le_of_not_lt hlt, ?_⟩
    cases h1 : detectInMyTrajectory p d msg s with
    | fatal s1 => rw [h1] at h; simp at h
    | ok u s1 =>
      rw [h1] at h
      simp only at h
      cases h2 : detectInOtherTrajectories p d msg s1 with
      | fatal s2 => rw [h2] at h; simp at h
      | ok u' s2 =>
        rw [h2] at h
        exact ⟨s1, s2, rfl, h2, h⟩

theorem addBowVector_self (p : Params) (msg : BowQuery) (s s' : DistributedLoopClosure)
    (hr : msg.robot_id = p.my_id) (h : addBowVector p msg s = .ok () s') :
    msg.pose_id = s.next_pose_id ∧ s.db_BoW.length = s.next_pose_id ∧
      s'.db_BoW = s.db_BoW ++ [msg.bow_vector] ∧ s'.next_pose_id = s.next_pose_id + 1 ∧
      s'.latest_bowvec = msg.bow_vector ∧ s'.shared_db_BoW = s.shared_db_BoW ∧
      s'.shared_db_to_vertex = s.shared_db_to_vertex := by
  unfold addBowVector at h
  simp only [hr, if_true] at h
  split at h
  · simp at h
  · rename_i hp
    split at h
    · simp at h
    · rename_i hl
      simp only [Outcome.ok.injEq, true_and] at h
      subst h
      simp only [ne_eq, not_not] at hp hl
      exact ⟨hp, hl, rfl, rfl, rfl, rfl, rfl⟩

theorem addBowVector_peer (p : Params) (msg : BowQuery) (s : DistributedLoopClosure)
    (hr : msg.robot_id ≠ p.my_id) :
    addBowVector p msg s = .ok () { s with
      shared_db_BoW := s.shared_db_BoW ++ [msg.bow_vector]
      shared_db_to_vertex :=
        mapAssign s.shared_db_to_vertex s.shared_db_BoW.length msg.vertex } := by
  unfold addBowVector
  simp only [hr, if_false]
  rfl

theorem ingested_init (p : Params) : Ingested p [] DistributedLoopClosure.init := by
  simp [Ingested, selfMsgs, peerMsgs, DistributedLoopClosure.init]

theorem selfMsgs_append (p : Params) (ms : List BowQuery) (msg : BowQuery) :
    selfMsgs p (ms ++ [msg]) =
      if msg.robot_id = p.my_id then selfMsgs p ms ++ [msg] else selfMsgs p ms := by
  by_cases h : msg.robot_id = p.my_id <;> simp [selfMsgs, List.filter_append, List.filter, h]

theorem peerMsgs_append (p : Params) (ms : List BowQuery) (msg : BowQuery) :
    peerMsgs p (ms ++ [msg]) =
      if msg.robot_id = p.my_id then peerMsgs p ms else peerMsgs p ms ++ [msg] := by
  by_cases h : msg.robot_id = p.my_id <;> simp [peerMsgs, List.filter_append, List.filter, h]

/-- One processed message extends the history. -/
theorem ingested_step (p : Params) (d : Deps) (ms : List BowQuery) (msg : BowQuery)
    (s s' : DistributedLoopClosure) (hi : Ingested p ms s)
    (h : bowCallback p d msg s = .ok () s') : Ingested p (ms ++ [msg]) s' := by
  obtain ⟨hge, s1, s2, h1, h2, h3⟩ := bowCallback_ok p d msg s s' h
  have k1 := detectInMyTrajectory_state p d msg s
  have k2 := detectInOtherTrajectories_state p d msg s1
  rw [h1] at k1
  rw [h2] at k2
  have hk : DBKept s s2 := dbKept_trans (dbKept_of_dbView k1.1) k2.1
  obtain ⟨e1, e2, e3, e4, e5⟩ := hk
  obtain ⟨i1, i2, i3, i4, i5, i6, i7⟩ := hi
  have hmem : ∀ m ∈ ms ++ [msg], p.my_id ≤ m.robot_id := by
    intro m hm
    rcases List.mem_append.1 hm with hm | hm
    · exact i5 m hm
    · simp only [List.mem_singleton] at hm
      subst hm
      exact hge
  by_cases hr : msg.robot_id = p.my_id
  · obtain ⟨a1, a2, a3, a4, a5, a6, a7⟩ := addBowVector_self p msg s2 s' hr h3
    unfold Ingested
    rw [selfMsgs_append, peerMsgs_append]
    simp only [hr, if_true]
    refine ⟨?_, ?_, ?_, ?_, hmem, ?_, ?_⟩
    · rw [a3, e2, i1]; simp
    · rw [a4, e1, i2]; simp
    · rw [a5]; simp
    · rw [List.map_append, i4, List.length_append, List.length_singleton, List.range_succ]
      simp only [List.map_cons, List.map_nil, List.append_cancel_left_eq, List.cons.injEq,
        and_true]
      rw [a1, e1, i2]
    · rw [a6, e3, i6]
    · intro i m hm
      rw [a7]
      exact e5 i _ (i7 i m hm)
  · have a := addBowVector_peer p msg s2 hr
    rw [a] at h3
    simp only [Outcome.ok.injEq, true_and] at h3
    subst h3
    unfold Ingested
    rw [selfMsgs_append, peerMsgs_append]
    simp only [hr, if_false]
    refine ⟨by rw [e2, i1], by rw [e1, i2], by rw [e4, i3], i4, hmem, ?_, ?_⟩
    · rw [e3, i6]; simp
    · intro i m hm
      have hlen : s2.shared_db_BoW.length = (peerMsgs p ms).length := by
        rw [e3, i6]; simp
      rw [hlen]
      by_cases hlt : i < (peerMsgs p ms).length
      · rw [List.getElem?_append_left hlt] at hm
        have hne : (peerMsgs p ms).length ≠ i := by omega
        rw [mapFind_mapAssign_of_ne _ _ _ _ hne]
        exact e5 i _ (i7 i m hm)
      · have hle : (peerMsgs p ms).length ≤ i := by omega
        rw [List.getElem?_append_right hle] at hm
        have hi0 : i - (peerMsgs p ms).length = 0 := by
          by_contra hne
          have : [msg][i - (peerMsgs p ms).length]? = none := by
            apply List.getElem?_eq_none
            simp only [List.length_singleton]
            omega
          rw [this] at hm
          simp at hm
        rw [hi0] at hm
        simp only [List.getElem?_cons_zero, Option.some.injEq] at hm
        subst hm
        have : i = (peerMsgs p ms).length := by omega
        subst this
        exact mapFind_mapAssign_self _ _ _

theorem ingested_run (p : Params) (d : Deps) (rest ms : List BowQuery)
    (s s' : DistributedLoopClosure) (hi : Ingested p ms s)
    (h : runBow p d rest s = .ok () s') : Ingested p (ms ++ rest) s' := by
  induction rest generalizing ms s with
  | nil =>
    simp only [runBow, Outcome.ok.injEq, true_and] at h
    subst h
    simpa using hi
  | cons msg rest ih =>
    unfold runBow at h
    cases h1 : bowCallback p d msg s with
    | fatal s1 => rw [h1] at h; simp at h
    | ok u s1 =>
      rw [h1] at h
      have := ih (ms ++ [msg]) s1 (ingested_step p d ms msg s s1 hi h1) h
      simpa using this

theorem ingested_of_run (p : Params) (d : Deps) (msgs : List BowQuery)
    (s : DistributedLoopClosure) (h : runBow p d msgs .init = .ok () s) :
    Ingested p msgs s := by
  simpa using ingested_run p d msgs [] _ s (ingested_init p) h

theorem ingested_of_kept {p : Params} {ms : List BowQuery} {s s' : DistributedLoopClosure}
    (hi : Ingested p ms s) (hk : DBKept s s') : Ingested p ms s' := by
  obtain ⟨e1, e2, e3, e4, e5⟩ := hk
  obtain ⟨i1, i2, i3, i4, i5, i6, i7⟩ := hi
  exact ⟨by rw [e2, i1], by rw [e1, i2], by rw [e4, i3], i4, i5, by rw [e3, i6],
    fun i m hm => e5 i _ (i7 i m hm)⟩

/-- The side map answers for every index of the shared database. -/
theorem ingested_lookup {p : Params} {ms : List BowQuery} {s : DistributedLoopClosure}
    (hi : Ingested p ms s) (i : Nat) (h : i < s.shared_db_BoW.length) :
    ∃ msg, (peerMsgs p ms)[i]? = some msg ∧
      mapFind s.shared_db_to_vertex i = some msg.vertex ∧ p.my_id < msg.robot_id := by
  obtain ⟨-, -, -, -, i5, i6, i7⟩ := hi
  rw [i6, List.length_map] at h
  refine ⟨(peerMsgs p ms)[i], List.getElem?_eq_getElem h, i7 i _ (List.getElem?_eq_getElem h), ?_⟩
  have hmem : (peerMsgs p ms)[i] ∈ peerMsgs p ms := List.getElem_mem h
  simp only [peerMsgs, List.mem_filter, decide_eq_true_eq] at hmem
  exact Nat.lt_of_le_of_ne (i5 _ hmem.1) (Ne.symm hmem.2)

/-- On a state built by messages, under the database contract, the shared
detection is the rule of the specification and leaves the state as it is. -/
theorem detectLoopInSharedDB_of_ingested (p : Params) (d : Deps) (hq : QueryInRange d)
    (ms : List BowQuery) (s : DistributedLoopClosure) (hi : Ingested p ms s) (v : BowVector) :
    detectLoopInSharedDB p d s v = (sharedDetectionRule p d (peerMsgs p ms) v, s) := by
  have i6 := hi.2.2.2.2.2.1
  unfold detectLoopInSharedDB sharedDetectionRule
  rw [← i6]
  cases hqr : d.query s.shared_db_BoW v p.max_db_results (-1) with
  | nil => rfl
  | cons top rest =>
    simp only
    split
    · have hlt : top.Id < s.shared_db_BoW.length :=
        (hq s.shared_db_BoW v p.max_db_results (-1) top (by rw [hqr]; simp)).1
      obtain ⟨msg, h1, h2, -⟩ := ingested_lookup hi top.Id hlt
      rw [mapIndex_of_some _ _ _ h2, h1]
      rfl
    · rfl

theorem addBowVector_state (p : Params) (msg : BowQuery) (s : DistributedLoopClosure) :
    (addBowVector p msg s).state.checked = s.checked ∧
      (msg.robot_id ≠ p.my_id → (addBowVector p msg s).state.db_BoW = s.db_BoW ∧
        (addBowVector p msg s).state.next_pose_id = s.next_pose_id ∧
        (addBowVector p msg s).state.latest_bowvec = s.latest_bowvec) ∧
      (msg.robot_id = p.my_id →
        (addBowVector p msg s).state.shared_db_BoW = s.shared_db_BoW ∧
        (addBowVector p msg s).state.shared_db_to_vertex = s.shared_db_to_vertex) := by
  unfold addBowVector
  by_cases hr : msg.robot_id = p.my_id
  · simp only [hr, if_true]
    split
    · simp [Outcome.state]
    · split <;> simp [Outcome.state]
  · simp [hr, Outcome.state]

/-- The pairs `bowCallback` announces for verification: the query is the
vertex of the message, the match comes from one of the two detections. -/
theorem bowCallback_checked (p : Params) (d : Deps) (msg : BowQuery)
    (s : DistributedLoopClosure) (hacc : p.my_id ≤ msg.robot_id) :
    ∃ new, (bowCallback p d msg s).state.checked = s.checked ++ new ∧
      ∀ e ∈ new, e.1 = msg.vertex ∧
        (detectLoopInMyDB p d s msg.vertex msg.bow_vector = some e.2 ∨
          (msg.robot_id = p.my_id ∧ ∃ s1, detectInMyTrajectory p d msg s = .ok () s1 ∧
            (detectLoopInSharedDB p d s1 msg.bow_vector).1 = some e.2)) := by
  have hlt : ¬ msg.robot_id < p.my_id := Nat.not_lt.mpr hacc
  have k1 := detectInMyTrajectory_state p d msg s
  have local_ok : ∀ e ∈ candidateOf msg.vertex (detectLoopInMyDB p d s msg.vertex msg.bow_vector),
      e.1 = msg.vertex ∧ detectLoopInMyDB p d s msg.vertex msg.bow_vector = some e.2 := by
    intro e he
    cases hd : detectLoopInMyDB p d s msg.vertex msg.bow_vector with
    | none => rw [hd] at he; simp [candidateOf] at he
    | some m =>
      rw [hd] at he
      simp only [candidateOf, List.mem_singleton] at he
      subst he
      exact ⟨rfl, rfl⟩
  unfold bowCallback
  simp only [hlt, if_false]
  cases h1 : detectInMyTrajectory p d msg s with
  | fatal s1 =>
    rw [h1] at k1
    exact ⟨_, k1.2, fun e he => ⟨(local_ok e he).1, Or.inl (local_ok e he).2⟩⟩
  | ok u s1 =>
    rw [h1] at k1
    simp only [Outcome.state] at k1
    have k2 := detectInOtherTrajectories_state p d msg s1
    have k3 : (match detectInOtherTrajectories p d msg s1 with
        | .fatal s => Outcome.fatal s
        | .ok _ s => addBowVector p msg s).state.checked =
          (detectInOtherTrajectories p d msg s1).state.checked := by
      cases h2 : detectInOtherTrajectories p d msg s1 with
      | fatal s2 => rfl
      | ok u' s2 => exact (addBowVector_state p msg s2).1
    simp only
    refine ⟨_, by rw [k3, k2.2, k1.2, List.append_assoc], ?_⟩
    intro e he
    rcases List.mem_append.1 he with he | he
    · exact ⟨(local_ok e he).1, Or.inl (local_ok e he).2⟩
    · by_cases hr : msg.robot_id = p.my_id
      · simp only [hr, if_true] at he
        cases hd : (detectLoopInSharedDB p d s1 msg.bow_vector).1 with
        | none => rw [hd] at he; simp [candidateOf] at he
        | some m =>
          rw [hd] at he
          simp only [candidateOf, List.mem_singleton] at he
          subst he
          exact ⟨rfl, Or.inr ⟨hr, s1, rfl, hd⟩⟩
      · simp [hr] at he

/-! ## The reference deployment meets the database contract -/

theorem mem_insertResult (r x : Result) (l : List Result) (h : x ∈ insertResult r l) :
    x = r ∨ x ∈ l := by
  induction l with
  | nil => simpa [insertResult] using h
  | cons y rest ih =>
    unfold insertResult at h
    split at h
    · simpa using h
    · rcases List.mem_cons.1 h with h | h
      · exact Or.inr (by simp [h])
      · rcases ih h with h | h
        · exact Or.inl h
        · exact Or.inr (by simp [h])

theorem mem_scoreEntries (score : BowVector → BowVector → ℚ) (v : BowVector) (max_id : Int)
    (db : List BowVector) (i : Nat) (x : Result)
    (h : x ∈ scoreEntries score v max_id db i) :
    i ≤ x.Id ∧ x.Id < i + db.length ∧ (max_id < 0 ∨ (x.Id : Int) ≤ max_id) := by
  induction db generalizing i with
  | nil => simp [scoreEntries] at h
  | cons e rest ih =>
    unfold scoreEntries at h
    have tail : x ∈ scoreEntries score v max_id rest (i + 1) →
        i ≤ x.Id ∧ x.Id < i + (e :: rest).length ∧ (max_id < 0 ∨ (x.Id : Int) ≤ max_id) := by
      intro hx
      have := ih (i + 1) hx
      simp only [List.length_cons]
      omega
    split at h
    · rename_i hc
      rcases mem_insertResult _ _ _ h with h | h
      · subst h
        simp only [List.length_cons]
        exact ⟨le_refl _, by omega, hc⟩
      · exact tail h
    · exact tail h

theorem refQuery_inRange (n : Nat) (ransac : RansacOutcome) : QueryInRange (refDeps n ransac) := by
  intro db v max_results max_id r hr
  have hmem : r ∈ scoreEntries refScore v max_id db 0 := by
    simp only [refDeps, refQuery] at hr
    split at hr
    · exact List.mem_of_mem_take hr
    · exact hr
  have := mem_scoreEntries _ _ _ _ _ _ hmem
  refine ⟨by omega, fun h0 => ?_⟩
  rcases this.2.2 with h | h
  · omega
  · exact h

/-- What `bowCallback` does to the databases, whether it returns or aborts on
the way: before the insertion they are kept. -/
theorem bowCallback_before_insertion (p : Params) (d : Deps) (msg : BowQuery)
    (s : DistributedLoopClosure) :
    bowCallback p d msg s = .fatal s ∨
      (∃ s1, bowCallback p d msg s = .fatal s1 ∧ DBKept s s1 ∧ p.my_id ≤ msg.robot_id) ∨
      (∃ s2, bowCallback p d msg s = addBowVector p msg s2 ∧ DBKept s s2 ∧
        p.my_id ≤ msg.robot_id ∧ ∃ s1, detectInMyTrajectory p d msg s = .ok () s1 ∧
          detectInOtherTrajectories p d msg s1 = .ok () s2) := by
  unfold bowCallback
  by_cases hlt : msg.robot_id < p.my_id
  · simp [hlt]
  · have hge : p.my_id ≤ msg.robot_id := Nat.le_of_not_lt hlt
    simp only [hlt, if_false]
    have k1 := detectInMyTrajectory_state p d msg s
    cases h1 : detectInMyTrajectory p d msg s with
    | fatal s1 =>
      rw [h1] at k1
      exact Or.inr (Or.inl ⟨s1, rfl, dbKept_of_dbView k1.1, hge⟩)
    | ok u s1 =>
      rw [h1] at k1
      have k2 := detectInOtherTrajectories_state p d msg s1
      simp only
      cases h2 : detectInOtherTrajectories p d msg s1 with
      | fatal s2 =>
        rw [h2] at k2
        exact Or.inr (Or.inl ⟨s2, rfl, dbKept_trans (dbKept_of_dbView k1.1) k2.1, hge⟩)
      | ok u' s2 =>
        rw [h2] at k2
        exact Or.inr (Or.inr ⟨s2, rfl, dbKept_trans (dbKept_of_dbView k1.1) k2.1, hge,
          s1, rfl, h2⟩)

theorem detectInOtherTrajectories_dbView (p : Params) (d : Deps) (hq : QueryInRange d)
    (ms : List BowQuery) (s : DistributedLoopClosure) (hi : Ingested p ms s) (msg : BowQuery) :
    (detectInOtherTrajectories p d msg s).state.dbView = s.dbView := by
  unfold detectInOtherTrajectories
  by_cases hr : msg.robot_id = p.my_id
  · simp only [hr, if_true]
    rw [detectLoopInSharedDB_of_ingested p d hq ms s hi msg.bow_vector]
    cases sharedDetectionRule p d (peerMsgs p ms) msg.bow_vector with
    | none => rfl
    | some m => exact (verifyCandidate_state p d _ m s).1
  · simp [hr, Outcome.state]

/-- An own message leaves the side map as it is. -/
theorem bowCallback_side_map (p : Params) (d : Deps) (hq : QueryInRange d)
    (ms : List BowQuery) (s : DistributedLoopClosure) (hi : Ingested p ms s) (msg : BowQuery)
    (hr : msg.robot_id = p.my_id) :
    (bowCallback p d msg s).state.shared_db_to_vertex = s.shared_db_to_vertex := by
  have side : ∀ {a b : DistributedLoopClosure}, a.dbView = b.dbView →
      a.shared_db_to_vertex = b.shared_db_to_vertex := by
    intro a b h
    simp only [DistributedLoopClosure.dbView, Prod.mk.injEq] at h
    exact h.2.2.2.2
  have hlt : ¬ msg.robot_id < p.my_id := by rw [hr]; exact Nat.lt_irrefl _
  have k1 := detectInMyTrajectory_state p d msg s
  unfold bowCallback
  simp only [hlt, if_false]
  cases h1 : detectInMyTrajectory p d msg s with
  | fatal s1 => rw [h1] at k1; exact side k1.1
  | ok u s1 =>
    rw [h1] at k1
    simp only [Outcome.state] at k1
    have hi1 : Ingested p ms s1 := ingested_of_kept hi (dbKept_of_dbView k1.1)
    have k2 := detectInOtherTrajectories_dbView p d hq ms s1 hi1 msg
    simp only
    cases h2 : detectInOtherTrajectories p d msg s1 with
    | fatal s2 => rw [h2] at k2; exact (side k2).trans (side k1.1)
    | ok u' s2 =>
      rw [h2] at k2
      simp only [Outcome.state] at k2
      rw [((addBowVector_state p msg s2).2.2 hr).2]
      exact (side k2).trans (side k1.1)

/-- What `bowCallback` keeps of the databases, whether it returns or aborts. -/
theorem bowCallback_databases (p : Params) (d : Deps) (msg : BowQuery)
    (s : DistributedLoopClosure) :
    (msg.robot_id ≠ p.my_id → (bowCallback p d msg s).state.db_BoW = s.db_BoW ∧
      (bowCallback p d msg s).state.next_pose_id = s.next_pose_id ∧
      (bowCallback p d msg s).state.latest_bowvec = s.latest_bowvec) ∧
    (msg.robot_id = p.my_id →
      (bowCallback p d msg s).state.shared_db_BoW = s.shared_db_BoW) := by
  rcases bowCallback_before_insertion p d msg s with h | ⟨s1, h, hk, -⟩ | ⟨s2, h, hk, -, -⟩
  · rw [h]; exact ⟨fun _ => ⟨rfl, rfl, rfl⟩, fun _ => rfl⟩
  · rw [h]; exact ⟨fun _ => ⟨hk.2.1, hk.1, hk.2.2.2.1⟩, fun _ => hk.2.2.1⟩
  · rw [h]
    have a := addBowVector_state p msg s2
    refine ⟨fun hr => ?_, fun hr => ?_⟩
    · obtain ⟨a1, a2, a3⟩ := a.2.1 hr
      exact ⟨a1.trans hk.2.1, a2.trans hk.1, a3.trans hk.2.2.2.1⟩
    · exact ((a.2.2 hr).1).trans hk.2.2.1

theorem bowCallback_returns (p : Params) (d : Deps) (hv : VerificationReturns p d)
    (msg : BowQuery) (s : DistributedLoopClosure) (hge : p.my_id ≤ msg.robot_id)
    (hself : msg.robot_id = p.my_id →
      msg.pose_id = s.next_pose_id ∧ s.db_BoW.length = s.next_pose_id) :
    ∃ s', bowCallback p d msg s = .ok () s' := by
  have verify : ∀ q m s0, ∃ s1, verifyCandidate p d q m s0 = .ok () s1 := by
    intro q m s0
    have h := (verifyCandidate_state p d q m s0).2.2.2.2
    rw [← (recoverPose_state p d q m s0).2, hv q m s0] at h
    cases hc : verifyCandidate p d q m s0 with
    | fatal s1 => rw [hc] at h; simp [Outcome.returned] at h
    | ok u s1 => exact ⟨s1, rfl⟩
  have hlt : ¬ msg.robot_id < p.my_id := Nat.not_lt.mpr hge
  obtain ⟨s1, h1⟩ : ∃ s1, detectInMyTrajectory p d msg s = .ok () s1 := by
    unfold detectInMyTrajectory
    cases detectLoopInMyDB p d s (msg.robot_id, msg.pose_id) msg.bow_vector with
    | none => exact ⟨s, rfl⟩
    | some m => exact verify _ m s
  obtain ⟨s2, h2⟩ : ∃ s2, detectInOtherTrajectories p d msg s1 = .ok () s2 := by
    unfold detectInOtherTrajectories
    split
    · cases detectLoopInSharedDB p d s1 msg.bow_vector with
      | mk r s1' =>
        cases r with
        | none => exact ⟨s1', rfl⟩
        | some m => exact verify _ m s1'
    · exact ⟨s1, rfl⟩
  have k1 := detectInMyTrajectory_state p d msg s
  have k2 := detectInOtherTrajectories_state p d msg s1
  rw [h1] at k1
  rw [h2] at k2
  have hk : DBKept s s2 := dbKept_trans (dbKept_of_dbView k1.1) k2.1
  unfold bowCallback
  simp only [hlt, if_false, h1, h2]
  unfold addBowVector
  by_cases hr : msg.robot_id = p.my_id
  · obtain ⟨hp, hl⟩ := hself hr
    simp only [hr, if_true, hk.1, hk.2.1, hp, hl, ne_eq, not_true_eq_false, if_false]
    exact ⟨_, rfl⟩
  · simp only [hr, if_false]
    exact ⟨_, rfl⟩

theorem inSequence_next (p : Params) (ms rest : List BowQuery) (msg : BowQuery)
    (h : InSequence p (ms ++ msg :: rest)) (hr : msg.robot_id = p.my_id) :
    msg.pose_id = (selfMsgs p ms).length := by
  have h2 := h.2
  have e : selfMsgs p (ms ++ msg :: rest) = selfMsgs p ms ++ msg :: selfMsgs p rest := by
    simp [selfMsgs, List.filter_append, List.filter_cons, hr]
  rw [e] at h2
  have h3 := congrArg (fun l => l[(selfMsgs p ms).length]?) h2
  simp only [List.map_append, List.map_cons, List.length_append, List.length_cons] at h3
  rw [List.getElem?_append_right (by simp)] at h3
  simp only [List.length_map, Nat.sub_self, List.getElem?_cons_zero] at h3
  rw [List.getElem?_range (by omega)] at h3
  exact Option.some.inj h3

theorem runBow_returns (p : Params) (d : Deps) (hv : VerificationReturns p d)
    (rest ms : List BowQuery) (s : DistributedLoopClosure) (hi : Ingested p ms s)
    (hseq : InSequence p (ms ++ rest)) : ∃ s', runBow p d rest s = .ok () s' := by
  induction rest generalizing ms s with
  | nil => exact ⟨s, rfl⟩
  | cons msg rest ih =>
    have hge : p.my_id ≤ msg.robot_id := hseq.1 msg (by simp)
    have hself : msg.robot_id = p.my_id →
        msg.pose_id = s.next_pose_id ∧ s.db_BoW.length = s.next_pose_id := by
      intro hr
      have := inSequence_next p ms rest msg hseq hr
      rw [hi.2.1, hi.1, List.length_map]
      exact ⟨this, rfl⟩
    obtain ⟨s1, h1⟩ := bowCallback_returns p d hv msg s hge hself
    have hi1 := ingested_step p d ms msg s s1 hi h1
    have hseq1 : InSequence p ((ms ++ [msg]) ++ rest) := by simpa using hseq
    obtain ⟨s', h'⟩ := ih (ms ++ [msg]) s1 hi1 hseq1
    exact ⟨s', by unfold runBow; rw [h1]; exact h'⟩

theorem requestVLCFrame_refDeps (n : Nat) (r : RansacOutcome) (v : VertexID)
    (s : DistributedLoopClosure) : ∃ s1, requestVLCFrame (refDeps n r) v s = .ok () s1 := by
  unfold requestVLCFrame
  cases mapFind s.vlc_frames v with
  | some f => exact ⟨s, rfl⟩
  | none => simp [refDeps, unitFrame]

/-- In the reference deployment with a matcher that finds nothing,
verification never aborts. -/
theorem refDeps_verificationReturns (p : Params) (r : RansacOutcome) :
    VerificationReturns p (refDeps 0 r) := by
  intro q m s
  rw [(recoverPose_state p (refDeps 0 r) q m s).2]
  unfold matchedKeypoints
  simp only
  obtain ⟨s1, h1⟩ := requestVLCFrame_refDeps 0 r q { s with checked := s.checked ++ [(q, m)] }
  obtain ⟨s2, h2⟩ := requestVLCFrame_refDeps 0 r m s1
  rw [h1]
  simp only
  rw [h2]
  simp only
  have hq1 := requestVLCFrame_stored _ q _ s1 h1
  have hk := requestVLCFrame_kept (refDeps 0 r) m s1
  rw [h2] at hk
  have hm2 := requestVLCFrame_stored _ m _ s2 h2
  unfold ComputeMatchedIndices
  cases hfq : mapFind s1.vlc_frames q with
  | none => exact absurd hfq hq1
  | some fq =>
    have hq2 : mapFind s2.vlc_frames q = some fq := hk q fq hfq
    rw [hq2]
    cases hfm : mapFind s2.vlc_frames m with
    | none => exact absurd hfm hm2
    | some fm => simp [refDeps, loweFilter, collectKeypoints, Outcome.returned]

theorem sharedDetectionRule_some (p : Params) (d : Deps) (peers : List BowQuery)
    (v : BowVector) (m : VertexID) (h : sharedDetectionRule p d peers v = some m) :
    ∃ msg ∈ peers, m = msg.vertex := by
  unfold sharedDetectionRule at h
  split at h
  · simp at h
  · split at h
    · rename_i top rest hq hge
      cases hp : peers[top.Id]? with
      | none => rw [hp] at h; simp at h
      | some msg =>
        rw [hp] at h
        simp only [Option.map_some', Option.some.injEq] at h
        exact ⟨msg, List.getElem?_mem hp, h.symm⟩
    · simp at h

theorem detectLoopInMyDB_robot (p : Params) (d : Deps) (s : DistributedLoopClosure)
    (q : VertexID) (v : BowVector) (m : VertexID) (h : detectLoopInMyDB p d s q v = some m) :
    m.1 = p.my_id := by
  have inner : ∀ max_id nss, queryMyDB p d s v max_id nss = some m → m.1 = p.my_id := by
    intro max_id nss hq
    unfold queryMyDB at hq
    simp only at hq
    split at hq
    · simp at hq
    · split at hq
      · simp only [Option.some.injEq] at hq
        rw [← hq]
      · simp at hq
  unfold detectLoopInMyDB at h
  simp only at h
  split at h
  · split at h
    · simp at h
    · exact inner _ _ h
  · exact inner _ _ h

/-- The keypoint lists handed to RANSAC have one point per correspondence
found by `ComputeMatchedIndices`. -/
theorem matchedKeypoints_correspondences (p : Params) (d : Deps) (q m : VertexID)
    (s s' : DistributedLoopClosure) (f_ref f_cur : List Point3)
    (h : matchedKeypoints p d q m s = .ok (f_ref, f_cur) s') :
    ∃ s2 i_query i_match, ComputeMatchedIndices p d s2 q m = some (i_query, i_match) ∧
      i_query.length = i_match.length ∧ f_ref.length = i_match.length ∧
      f_cur.length = i_query.length := by
  unfold matchedKeypoints at h
  simp only at h
  split at h
  · simp at h
  · split at h
    · simp at h
    · rename_i s2 _
      split at h
      · simp at h
      · rename_i i_query i_match hc
        split at h
        · simp at h
        · rename_i hlen
          simp only [ne_eq, not_not] at hlen
          have := collectKeypoints_length q m _ _ _ _ _ h
          simp only [List.length_zip, hlen, Nat.min_self] at this
          exact ⟨s2, i_query, i_match, hc, hlen, this.1, by rw [hlen]; exact this.2⟩

/-- `detectLoopInSharedDB` returns a candidate exactly when the unbounded query
has a top result whose score reaches `alpha_ * base_nss_factor_`. -/
theorem detectLoopInSharedDB_isSome (p : Params) (d : Deps) (s : DistributedLoopClosure)
    (v : BowVector) :
    (detectLoopInSharedDB p d s v).1.isSome = true ↔
      ∃ top rest, d.query s.shared_db_BoW v p.max_db_results (-1) = top :: rest ∧
        p.alpha * p.base_nss_factor ≤ top.Score := by
  unfold detectLoopInSharedDB
  cases hq : d.query s.shared_db_BoW v p.max_db_results (-1) with
  | nil => simp
  | cons top rest =>
    simp only
    by_cases hge : top.Score ≥ p.alpha * p.base_nss_factor
    · simp only [hge, if_true, Option.isSome_some, true_iff]
      exact ⟨top, rest, rfl, hge⟩
    · simp only [hge, if_false, Option.isSome_none, Bool.false_eq_true, false_iff]
      rintro ⟨top', rest', heq, hle⟩
      simp only [List.cons.injEq] at heq
      rw [← heq.1] at hle
      exact hge hle

/-- Away from the start of the run, `dist_local < next_pose_id`, the recent
window is respected: under the database contract a match `(my_id, p2)` of an
own query at pose `next_pose_id` has `next_pose_id - p2 > dist_local`. -/
theorem detectLoopInMyDB_window (p : Params) (d : Deps) (hq : QueryInRange d)
    (s : DistributedLoopClosure) (q m : VertexID) (v : BowVector)
    (hself : q.1 = p.my_id) (hpose : q.2 = s.next_pose_id)
    (hfar : p.dist_local < (s.next_pose_id : Int))
    (h : detectLoopInMyDB p d s q v = some m) :
    m.1 = p.my_id ∧ p.dist_local < (q.2 : Int) - (m.2 : Int) := by
  refine ⟨detectLoopInMyDB_robot p d s q v m h, ?_⟩
  unfold detectLoopInMyDB at h
  simp only [hself, if_true] at h
  split at h
  · simp at h
  · unfold queryMyDB at h
    have hb : ¬ ((s.next_pose_id : Int) - 1 - p.dist_local < 0) := by omega
    simp only [hb, if_false] at h
    split at h
    · simp at h
    · rename_i top rest hqr
      split at h
      · have hr := (hq _ _ _ _ top (by rw [hqr]; simp)).2 (by omega)
        simp only [Option.some.injEq] at h
        rw [← h, hpose]
        simp only
        omega
      · simp at h

/-- C2, the claim as stated fails. Robot 0 has processed the message of robot 1
for its pose 7 (`peerState`: the vector sits at index 0 of the shared
database, the side map sends 0 to `(1, 7)`) and then receives its own pose 0
with the same vector: `detectLoopInSharedDB` returns `(1, 7)` and
`bowCallback` announces the pair query `(0, 0)`, match `(1, 7)` for
verification. The robot of the match is above the robot of the query. -/
theorem edge_direction_counterexample :
    runBow (refParams 0) (refDeps 0 noModel) [⟨1, 7, word 0⟩] .init = .ok () peerState ∧
      (detectLoopInSharedDB (refParams 0) (refDeps 0 noModel) peerState (word 0)).1 =
        some (1, 7) ∧
      (bowCallback (refParams 0) (refDeps 0 noModel) ⟨0, 0, word 0⟩ peerState).state.checked =
        [((0, 0), (1, 7))] ∧
      ¬ ((1, 7) : VertexID).1 ≤ ((0, 0) : VertexID).1 := by
  decide!

/-- C2 as amended (edge direction). On the state a processed queue built,
under the database contract, for a message of a robot not below `my_id`:
every pair that `bowCallback` announces for verification has the vertex of
the message as query, so `query.robot ≥ my_id`; a match from
`detectLoopInMyDB` has `match.robot = my_id ≤ query.robot`; a match from
`detectLoopInSharedDB`, which runs for own messages only, has
`match.robot > my_id = query.robot`. -/
theorem edge_direction (p : Params) (d : Deps) (hq : QueryInRange d)
    (msgs : List BowQuery) (s : DistributedLoopClosure)
    (hrun : runBow p d msgs .init = .ok () s) (msg : BowQuery)
    (hacc : p.my_id ≤ msg.robot_id) :
    (∀ m, detectLoopInMyDB p d s msg.vertex msg.bow_vector = some m →
      m.1 = p.my_id ∧ m.1 ≤ msg.robot_id) ∧
    (∀ s1 m, detectInMyTrajectory p d msg s = .ok () s1 →
      (detectLoopInSharedDB p d s1 msg.bow_vector).1 = some m → p.my_id < m.1) ∧
    (∃ new, (bowCallback p d msg s).state.checked = s.checked ++ new ∧
      ∀ e ∈ new, e.1 = msg.vertex ∧ p.my_id ≤ e.1.1 ∧
        ((e.2.1 = p.my_id ∧ e.2.1 ≤ e.1.1) ∨ (e.1.1 = p.my_id ∧ e.1.1 < e.2.1))) := by
  have hi := ingested_of_run p d msgs s hrun
  have hlocal : ∀ m, detectLoopInMyDB p d s msg.vertex msg.bow_vector = some m →
      m.1 = p.my_id ∧ m.1 ≤ msg.robot_id := by
    intro m hm
    have := detectLoopInMyDB_robot p d s _ _ m hm
    exact ⟨this, by rw [this]; exact hacc⟩
  have hshared : ∀ s1 m, detectInMyTrajectory p d msg s = .ok () s1 →
      (detectLoopInSharedDB p d s1 msg.bow_vector).1 = some m → p.my_id < m.1 := by
    intro s1 m h1 hm
    have k1 := detectInMyTrajectory_state p d msg s
    rw [h1] at k1
    rw [detectLoopInSharedDB_of_ingested p d hq msgs s1
      (ingested_of_kept hi (dbKept_of_dbView k1.1)) msg.bow_vector] at hm
    obtain ⟨peer, hmem, rfl⟩ := sharedDetectionRule_some p d _ _ m hm
    have hge := hi.2.2.2.2.1 peer (List.mem_of_mem_filter hmem)
    simp only [peerMsgs, List.mem_filter, decide_eq_true_eq] at hmem
    exact Nat.lt_of_le_of_ne hge (Ne.symm hmem.2)
  refine ⟨hlocal, hshared, ?_⟩
  obtain ⟨new, hnew, hall⟩ := bowCallback_checked p d msg s hacc
  refine ⟨new, hnew, ?_⟩
  intro e he
  obtain ⟨he1, hsrc⟩ := hall e he
  have hq1 : e.1.1 = msg.robot_id := by rw [he1]; rfl
  refine ⟨he1, by rw [hq1]; exact hacc, ?_⟩
  rcases hsrc with hl | ⟨hr, s1, h1, hs⟩
  · have := hlocal e.2 hl
    exact Or.inl ⟨this.1, by rw [hq1]; exact this.2⟩
  · have := hshared s1 e.2 h1 hs
    exact Or.inr ⟨by rw [hq1]; exact hr, by rw [hq1, hr]; exact this⟩

/-- Witness of C2 as amended: robot 0 after `mixedMsgs` receives its own pose
3 with the vector robot 1 sent; the two pairs announced are the local match
`(0, 0)` and the shared match `(1, 4)`. -/
theorem edge_direction_witness :
    ∃ new, (bowCallback (refParams 0) (refDeps 0 noModel) ⟨0, 3, word 9⟩
        mixedState).state.checked = mixedState.checked ++ new ∧
      ∀ e ∈ new, e.1 = ((0, 3) : VertexID) ∧ 0 ≤ e.1.1 ∧
        ((e.2.1 = 0 ∧ e.2.1 ≤ e.1.1) ∨ (e.1.1 = 0 ∧ e.1.1 < e.2.1)) :=
  (edge_direction (refParams 0) (refDeps 0 noModel) (refQuery_inRange 0 noModel)
    mixedMsgs mixedState (by decide!) ⟨0, 3, word 9⟩ (by decide)).2.2

/-- C4 (local detection rule). For every state and every query,
`detectLoopInMyDB` computes the rule of spec 4.6-A: an own query whose
self-similarity is below `min_nss_factor` gives no candidate; otherwise the
local database is asked with the id bound `max(0, next_pose_id - dist_local - 1)`
(own query) or `max(0, next_pose_id - 1)` (other robot), and the candidate
`(my_id, top.id)` is returned exactly when there is a top result whose score
is at least `alpha * nss`. -/
theorem local_detection_rule (p : Params) (d : Deps) (s : DistributedLoopClosure)
    (q : VertexID) (v : BowVector) :
    detectLoopInMyDB p d s q v = localDetectionRule p d s q v := by
  unfold detectLoopInMyDB localDetectionRule queryMyDB
  by_cases hq : q.1 = p.my_id
  · by_cases hn : d.score v s.latest_bowvec < p.min_nss_factor
    · simp [hq, hn]
    · simp only [hq, hn, if_true, and_false, if_false, clamp_eq_max]
      rw [show (s.next_pose_id : Int) - 1 - p.dist_local =
        (s.next_pose_id : Int) - p.dist_local - 1 by ring]
  · simp only [hq, if_false, false_and, clamp_eq_max]

/-- C5 (shared detection rule). On the state `s` that a processed queue
`msgs` built, under the database contract: a message of another robot runs
no detection against the shared database, the only pair `bowCallback` then
announces is the local candidate; for an own message the call of
`detectLoopInSharedDB` that `bowCallback` makes (on the state `s1` left by
the local detection) asks the shared database with no id bound and returns
a candidate exactly when there is a top result whose score is at least
`alpha * base_nss_factor`, the match being the vertex of the message of
another robot whose insertion got the top result's index; the side map
answers for every index of the shared database. -/
theorem shared_detection_rule (p : Params) (d : Deps) (hq : QueryInRange d)
    (msgs : List BowQuery) (s : DistributedLoopClosure)
    (hrun : runBow p d msgs .init = .ok () s) (msg : BowQuery) :
    (msg.robot_id ≠ p.my_id → ∀ s1, detectInOtherTrajectories p d msg s1 = .ok () s1) ∧
    (p.my_id < msg.robot_id → (bowCallback p d msg s).state.checked =
      s.checked ++ candidateOf msg.vertex (detectLoopInMyDB p d s msg.vertex msg.bow_vector)) ∧
    (∀ s1, detectInMyTrajectory p d msg s = .ok () s1 →
      detectLoopInSharedDB p d s1 msg.bow_vector =
        (sharedDetectionRule p d (peerMsgs p msgs) msg.bow_vector, s1) ∧
      ((detectLoopInSharedDB p d s1 msg.bow_vector).1.isSome = true ↔
        ∃ top rest, d.query s.shared_db_BoW msg.bow_vector p.max_db_results (-1) = top :: rest ∧
          p.alpha * p.base_nss_factor ≤ top.Score)) ∧
    (∀ i, i < s.shared_db_BoW.length → ∃ peer, (peerMsgs p msgs)[i]? = some peer ∧
      s.shared_db_BoW[i]? = some peer.bow_vector ∧
      mapFind s.shared_db_to_vertex i = some peer.vertex) := by
  have hi := ingested_of_run p d msgs s hrun
  refine ⟨?_, ?_, ?_, ?_⟩
  · intro hr s1
    simp [detectInOtherTrajectories, hr]
  · intro hlt
    have hr : msg.robot_id ≠ p.my_id := Nat.ne_of_gt hlt
    have hnlt : ¬ msg.robot_id < p.my_id := Nat.not_lt.mpr (Nat.le_of_lt hlt)
    have k1 := detectInMyTrajectory_state p d msg s
    unfold bowCallback
    simp only [hnlt, if_false]
    cases h1 : detectInMyTrajectory p d msg s with
    | fatal s1 => rw [h1] at k1; exact k1.2
    | ok u s1 =>
      rw [h1] at k1
      simp only [detectInOtherTrajectories, hr, if_false]
      rw [(addBowVector_state p msg s1).1]
      exact k1.2
  · intro s1 h1
    have k1 := detectInMyTrajectory_state p d msg s
    rw [h1] at k1
    have hk : DBKept s s1 := dbKept_of_dbView k1.1
    refine ⟨detectLoopInSharedDB_of_ingested p d hq msgs s1
      (ingested_of_kept hi hk) msg.bow_vector, ?_⟩
    rw [detectLoopInSharedDB_isSome, hk.2.2.1]
  · intro i hlt
    obtain ⟨peer, h1, h2, -⟩ := ingested_lookup hi i hlt
    refine ⟨peer, h1, ?_, h2⟩
    rw [hi.2.2.2.2.2.1, List.getElem?_map, h1]
    rfl

/-- Witness of C5: robot 0 in `mixedState`, reached by `mixedMsgs`. Its own
pose 3 with the vector that robot 1 sent for pose 4 (index 0 of the shared
database) gets the match `(1, 4)`; for a message of robot 1 only the local
candidate is announced. -/
theorem shared_detection_rule_witness :
    detectLoopInSharedDB (refParams 0) (refDeps 0 noModel) mixedState (word 9) =
        (some (1, 4), mixedState) ∧
      (bowCallback (refParams 0) (refDeps 0 noModel) ⟨1, 5, word 0⟩ mixedState).state.checked =
        mixedState.checked ++ [((1, 5), (0, 0))] :=
  have h := shared_detection_rule (refParams 0) (refDeps 0 noModel) (refQuery_inRange 0 noModel)
    mixedMsgs mixedState (by decide!)
  ⟨((h ⟨0, 3, word 9⟩).2.2.1 mixedState (by decide!)).1.trans (by decide!),
   ((h ⟨1, 5, word 0⟩).2.1 (by decide)).trans (by decide!)⟩

/-- C6 (local DB contiguity). From the initial state, a message queue without
messages of robots below `my_id` whose own messages carry the pose ids
`0, 1, ..., N-1` in order is processed to the end when verification does not
abort; and whenever a queue has been processed to the end, it was such a
queue, the local database holds exactly `N` vectors, the vector of own pose
`i` sits at index `i`, `next_pose_id = N` and `latest_bowvec` is the vector
of the last own message. A message of another robot changes none of the
local database, `next_pose_id` and `latest_bowvec`; an own message does not
change the shared database nor, under the database contract, the side map. -/
theorem local_db_contiguity (p : Params) (d : Deps) (msgs : List BowQuery) :
    (VerificationReturns p d → InSequence p msgs →
      (runBow p d msgs .init).returned = true) ∧
    ∀ s, runBow p d msgs .init = .ok () s →
      InSequence p msgs ∧
      s.db_BoW.length = (selfMsgs p msgs).length ∧
      s.next_pose_id = (selfMsgs p msgs).length ∧
      (∀ (i : Nat) (msg : BowQuery), (selfMsgs p msgs)[i]? = some msg →
        msg.pose_id = i ∧ s.db_BoW[i]? = some msg.bow_vector) ∧
      (∀ msg : BowQuery, (selfMsgs p msgs).getLast? = some msg →
        s.latest_bowvec = msg.bow_vector) ∧
      (∀ msg : BowQuery, msg.robot_id ≠ p.my_id →
        (bowCallback p d msg s).state.db_BoW = s.db_BoW ∧
        (bowCallback p d msg s).state.next_pose_id = s.next_pose_id ∧
        (bowCallback p d msg s).state.latest_bowvec = s.latest_bowvec) ∧
      (∀ msg : BowQuery, msg.robot_id = p.my_id →
        (bowCallback p d msg s).state.shared_db_BoW = s.shared_db_BoW ∧
        (QueryInRange d →
          (bowCallback p d msg s).state.shared_db_to_vertex = s.shared_db_to_vertex)) := by
  constructor
  · intro hv hseq
    obtain ⟨s', h'⟩ := runBow_returns p d hv msgs [] .init (ingested_init p) (by simpa using hseq)
    rw [h']
    rfl
  · intro s hrun
    have hi := ingested_of_run p d msgs s hrun
    obtain ⟨i1, i2, i3, i4, i5, -, -⟩ := id hi
    refine ⟨⟨i5, i4⟩, by rw [i1, List.length_map], i2, ?_, ?_, ?_, ?_⟩
    · intro i msg hm
      have hlt : i < (selfMsgs p msgs).length := by
        by_contra hge
        rw [List.getElem?_eq_none (by omega)] at hm
        simp at hm
      constructor
      · have h3 := congrArg (fun l => l[i]?) i4
        simp only [List.getElem?_map, hm, Option.map_some'] at h3
        rw [List.getElem?_range hlt] at h3
        exact Option.some.inj h3
      · rw [i1, List.getElem?_map, hm]
        rfl
    · intro msg hm
      rw [i3, List.getLast?_map, hm]
      rfl
    · intro msg hr
      exact (bowCallback_databases p d msg s).1 hr
    · intro msg hr
      exact ⟨(bowCallback_databases p d msg s).2 hr,
        fun hq => bowCallback_side_map p d hq msgs s hi msg hr⟩

/-- Witness of C6: robot 0 processes `mixedMsgs` to the end; afterwards the
local database holds the three own vectors in pose order, and a further
message of robot 1 or of robot 0 leaves the other side's data as it is. -/
theorem local_db_contiguity_witness :
    (runBow (refParams 0) (refDeps 0 noModel) mixedMsgs .init).returned = true ∧
      mixedState.db_BoW.length = 3 ∧ mixedState.next_pose_id = 3 ∧
      mixedState.db_BoW[1]? = some (word 1) ∧ mixedState.latest_bowvec = word 2 ∧
      (bowCallback (refParams 0) (refDeps 0 noModel) ⟨1, 5, word 4⟩ mixedState).state.db_BoW =
        mixedState.db_BoW ∧
      (bowCallback (refParams 0) (refDeps 0 noModel) ⟨0, 3, word 9⟩
        mixedState).state.shared_db_to_vertex = mixedState.shared_db_to_vertex :=
  have h := local_db_contiguity (refParams 0) (refDeps 0 noModel) mixedMsgs
  have hs := h.2 mixedState (by decide!)
  ⟨h.1 (refDeps_verificationReturns _ _) ⟨by decide, by decide⟩,
   hs.2.1.trans (by decide), hs.2.2.1.trans (by decide),
   (hs.2.2.2.1 1 ⟨0, 1, word 1⟩ (by decide!)).2,
   hs.2.2.2.2.1 ⟨0, 2, word 2⟩ (by decide!),
   (hs.2.2.2.2.2.1 ⟨1, 5, word 4⟩ (by decide)).1,
   (hs.2.2.2.2.2.2 ⟨0, 3, word 9⟩ (by decide)).2 (refQuery_inRange 0 noModel)⟩

/-- C9, the claim as stated fails. The matcher leaves 2 correspondences and
RANSAC reports a model with 2 inliers; with an absolute floor of 2 and the
relative floor 3/10, `recoverPose` accepts the candidate. -/
theorem degenerate_match_counterexample :
    ComputeMatchedIndices (floorParams 2) (refDeps 2 (converged 2)) verifiedState (0, 3) (1, 7) =
        some ([0, 0], [0, 0]) ∧
      matchedKeypoints (floorParams 2) (refDeps 2 (converged 2)) (0, 3) (1, 7) .init =
        .ok ([(0, 0, 0), (0, 0, 0)], [(0, 0, 0), (0, 0, 0)]) verifiedState ∧
      recoverPose (floorParams 2) (refDeps 2 (converged 2)) (0, 3) (1, 7) .init =
        .ok (some (poseOfTransformation identityTransformation)) verifiedState ∧
      recoverPose (floorParams 2) (refDeps 2 noModel) (0, 3) (1, 7) .init =
        .ok none verifiedState := by
  decide!

/-- C9 as amended (degenerate match). `recoverPose` has no check of its own
on the number of correspondences: with fewer than 3 of them (`f_ref` holds
one point for each) it returns what the RANSAC outcome `r` and the inlier
gate decide. It rejects when RANSAC did not converge, when the inlier count
is below `min_inlier_count`, and, for `N > 0`, when the ratio is below
`min_inlier_percentage`; otherwise it accepts. -/
theorem degenerate_match_gate (p : Params) (d : Deps) (q m : VertexID)
    (s s' : DistributedLoopClosure) (f_ref f_cur : List Point3) (r : RansacOutcome)
    (h : matchedKeypoints p d q m s = .ok (f_ref, f_cur) s')
    (hN : f_ref.length < 3)
    (hr : d.computeModel p.max_ransac_iterations p.ransac_threshold f_ref f_cur = r) :
    (r.success = false → recoverPose p d q m s = .ok none s') ∧
    recoverPose p d q m s =
      .ok (if r.success = true
            ∧ p.geometric_verification_min_inlier_count ≤ r.inliers.length
            ∧ (f_ref.length = 0 ∨ p.geometric_verification_min_inlier_percentage ≤
                (r.inliers.length : ℚ) / (f_ref.length : ℚ))
          then some (poseOfTransformation r.model_coefficients)
          else none) s' := by
  subst hr
  have _ := hN
  rw [recoverPose_of_matchedKeypoints p d q m s s' f_ref f_cur h]
  constructor
  · intro hf
    simp [hf]
  · by_cases h0 : f_ref.length = 0
    · simp [h0, inlier_percentage_below]
    · simp only [inlier_percentage_below_pos _ _ _ (Nat.pos_of_ne_zero h0),
        decide_eq_false_iff_not, not_lt, h0, false_or]

/-- Witness of C9 as amended: 2 correspondences, a RANSAC that did not
converge, and the candidate is rejected by the gate. -/
theorem degenerate_match_gate_witness :
    recoverPose (floorParams 2) (refDeps 2 noModel) (0, 3) (1, 7) .init =
      .ok none verifiedState :=
  (degenerate_match_gate (floorParams 2) (refDeps 2 noModel) (0, 3) (1, 7) .init verifiedState
    [(0, 0, 0), (0, 0, 0)] [(0, 0, 0), (0, 0, 0)] noModel (by decide!) (by decide) rfl).1 rfl

/-- C10, the claim as stated fails. Robot 1 receives a message of robot 0, and
robot 0 receives an own message with pose id 5 while it expects pose id 0:
in both cases `bowCallback` does not return, an assertion ends the process.
In the third case robot 0 holds pose 0 (`firstState`) and receives an own
message with pose id 7 and the vector of pose 0, verification finding 40
inliers of 45: the loop closure `(0, 7) -> (0, 0)` is stored and published
before the assertion on the pose id ends the process. -/
theorem invalid_bow_counterexample :
    bowCallback (refParams 1) (refDeps 0 noModel) ⟨0, 0, word 0⟩ .init = .fatal .init ∧
      bowCallback (refParams 0) (refDeps 0 noModel) ⟨0, 5, word 0⟩ .init = .fatal .init ∧
      runBow (refParams 0) (refDeps 45 (converged 40)) [⟨0, 0, word 0⟩] .init =
        .ok () firstState ∧
      (bowCallback (refParams 0) (refDeps 45 (converged 40)) ⟨0, 7, word 0⟩
        firstState).returned = false ∧
      (bowCallback (refParams 0) (refDeps 45 (converged 40)) ⟨0, 7, word 0⟩
        firstState).state.published =
        [⟨(0, 7), (0, 0), poseOfTransformation identityTransformation⟩] := by
  decide!

/-- C10 as amended (invalid BoW message). A message of a robot below `my_id`,
or an own message whose pose id is not `next_pose_id`, is not dropped: a
failed assertion ends `bowCallback`. For a robot below `my_id` this happens
on entry, with the state untouched. For an own message out of sequence it
happens after the detections ran and before the insertion. In both cases
the local database, the shared database, `next_pose_id`, `latest_bowvec`
and every entry of the side map are as before. -/
theorem invalid_bow_aborts (p : Params) (d : Deps) (msg : BowQuery)
    (s : DistributedLoopClosure)
    (hinv : msg.robot_id < p.my_id ∨
      (msg.robot_id = p.my_id ∧ msg.pose_id ≠ s.next_pose_id)) :
    (bowCallback p d msg s).returned = false ∧
      (msg.robot_id < p.my_id → bowCallback p d msg s = .fatal s) ∧
      (bowCallback p d msg s).state.db_BoW = s.db_BoW ∧
      (bowCallback p d msg s).state.shared_db_BoW = s.shared_db_BoW ∧
      (bowCallback p d msg s).state.next_pose_id = s.next_pose_id ∧
      (bowCallback p d msg s).state.latest_bowvec = s.latest_bowvec ∧
      MapKept s.shared_db_to_vertex (bowCallback p d msg s).state.shared_db_to_vertex := by
  have entry : msg.robot_id < p.my_id → bowCallback p d msg s = .fatal s := by
    intro h
    simp [bowCallback, h]
  have fin : ∀ s1, bowCallback p d msg s = .fatal s1 → DBKept s s1 →
      (bowCallback p d msg s).returned = false ∧
      (bowCallback p d msg s).state.db_BoW = s.db_BoW ∧
      (bowCallback p d msg s).state.shared_db_BoW = s.shared_db_BoW ∧
      (bowCallback p d msg s).state.next_pose_id = s.next_pose_id ∧
      (bowCallback p d msg s).state.latest_bowvec = s.latest_bowvec ∧
      MapKept s.shared_db_to_vertex (bowCallback p d msg s).state.shared_db_to_vertex := by
    intro s1 h1 hk
    rw [h1]
    exact ⟨rfl, hk.2.1, hk.2.2.1, hk.1, hk.2.2.2.1, hk.2.2.2.2⟩
  rcases bowCallback_before_insertion p d msg s with h | ⟨s1, h, hk, -⟩ | ⟨s2, h, hk, hge, -⟩
  · have := fin s h (dbKept_refl s)
    exact ⟨this.1, entry, this.2⟩
  · have := fin s1 h hk
    exact ⟨this.1, entry, this.2⟩
  · rcases hinv with hlt | ⟨hr, hp⟩
    · exact absurd hlt (Nat.not_lt.mpr hge)
    · have hadd : addBowVector p msg s2 = .fatal s2 := by
        unfold addBowVector
        rw [hk.1]
        simp [hr, hp]
      have := fin s2 (h.trans hadd) hk
      exact ⟨this.1, entry, this.2⟩

/-- Witness of C10 as amended: a message of robot 0 at robot 1, and an own
message with pose id 5 at a robot that expects pose id 0. -/
theorem invalid_bow_aborts_witness :
    (bowCallback (refParams 1) (refDeps 0 noModel) ⟨0, 0, word 0⟩ .init).returned = false ∧
      (bowCallback (refParams 0) (refDeps 0 noModel) ⟨0, 5, word 0⟩ .init).returned = false :=
  ⟨(invalid_bow_aborts (refParams 1) (refDeps 0 noModel) ⟨0, 0, word 0⟩ .init
      (Or.inl (by decide))).1,
   (invalid_bow_aborts (refParams 0) (refDeps 0 noModel) ⟨0, 5, word 0⟩ .init
      (Or.inr ⟨by decide, by decide⟩)).1⟩

end KimeraDistributed
